import Mathlib

/-! # redis-stream-client-go: ownership, claim and release

A shallow embedding of `impl/main.go` and `impl/helpers.go`, and the properties of
`Init`, `Claim`, `Done` and `Close`.

* Go strings are Lean strings; `strings.Split(s, ":")` is `Split`; a Go map with string
  keys is an association list read by `mapGet`.
* The Redis server is an explicit state `Redis`: the string keys with their TTL, the
  pending-entry list of the consumer groups, and the log of the commands received.
  A command of the client that fails (`res.Err() != nil`) is given by a fault argument.
* The lock library (`redsync`) is embedded at the level of the commands it sends:
  `acquire` (SET NX), `release` (delete-if-value-matches script) and `touch`
  (extend script with SET NX fallback), and the loop of `Lock` over them.  Durations
  of the client are counted in nanoseconds; the TTL of a key is what the commands ask
  for, in whole milliseconds.  Time does not pass inside a call: a TTL is a stored
  number and no key expires while an operation runs; the validity window of a taken
  lock and the time-outs of the commands, which compare elapsed time with the expiry,
  are outside the embedding.  The commands of the lock library always reach the
  server and are answered.
* A Go `error` is a value of `GoError`; `nil` is `none`.
* A call either returns, panics, or blocks forever: `Outcome`.
* `helpers.go` declares its methods on `RecoverableRedisStreamClient`; they are read
  as methods of the client struct of `main.go`.
-/

namespace RedisStreamClient

/-! ## Go values -/

/-- Go `error` values that occur in the client. -/
inductive GoError where
  /-- The value of `errors.New(msg)` and of `fmt.Errorf(msg)` without a wrapping verb. -/
  | errorString (msg : String)
  /-- The lock library's `*ErrTaken`: the key exists with another value. -/
  | ErrTaken
  /-- An error list of the lock library holding one error; `errors.Unwrap` yields it. -/
  | wrapped (inner : GoError)
  /-- The error of a Redis command that failed (`res.Err()`). -/
  | redis (msg : String)
  deriving DecidableEq, Repr

/-- The lock library's sentinel `ErrLockAlreadyExpired`. -/
def ErrLockAlreadyExpired : GoError :=
  .errorString "failed to unlock, lock was already expired"

/-- Go's `errors.Unwrap`. -/
def GoError.Unwrap : GoError → Option GoError
  | .wrapped e => some e
  | _ => none

/-- How a Go call ends. -/
inductive Outcome (α : Type) where
  | returned (a : α)
  /-- A run-time panic with its message. -/
  | panicked (msg : String)
  /-- The goroutine blocks forever. -/
  | blocked
  deriving DecidableEq, Repr

/-- Splitting a list of characters at every occurrence of `sep`. -/
def splitChars (sep : Char) : List Char → List (List Char)
  | [] => [[]]
  | c :: cs =>
    if c = sep then [] :: splitChars sep cs
    else
      match splitChars sep cs with
      | [] => [[c]]
      | p :: ps => (c :: p) :: ps

/-- Go's `strings.Split(s, sep)` for a separator of one character. -/
def Split (s : String) (sep : Char) : List String :=
  (splitChars sep s.data).map String.mk

/-! ## Go maps with string keys -/

/-- Reading a key of a Go map; `none` is the "not ok" of `v, ok := m[k]`. -/
def mapGet {V : Type} (m : List (String × V)) (k : String) : Option V :=
  match m with
  | [] => none
  | (k', v) :: rest => if k = k' then some v else mapGet rest k

/-- The Go statement `delete(m, k)`. -/
def mapDelete {V : Type} (m : List (String × V)) (k : String) : List (String × V) :=
  m.filter (fun p => decide (p.1 ≠ k))

/-- The Go statement `m[k] = v`. -/
def mapSet {V : Type} (m : List (String × V)) (k : String) (v : V) : List (String × V) :=
  (k, v) :: mapDelete m k

/-! ## The Redis server -/

/-- A string key of the server: its value and its time to live in whole milliseconds;
`none` is a key that does not expire. -/
structure KeyEntry where
  value : String
  ttl : Option Nat
  deriving DecidableEq, Repr

/-- An entry of a consumer group's pending list. -/
structure PendingEntry where
  stream : String
  group : String
  id : String
  consumer : String
  idle : Nat
  deriving DecidableEq, Repr

/-- The commands the client and the lock library send to the server. -/
inductive Cmd where
  | SetNX (key value : String) (ttl : Option Nat)
  | EvalDelete (key value : String)
  | EvalTouch (key value : String) (milliseconds : Nat)
  | XClaim (stream group consumer : String) (minIdle : Nat) (messages : List String)
  | XAck (stream group id : String)
  | ConfigSet (parameter value : String)
  | PSubscribe (pattern : String)
  deriving DecidableEq, Repr

/-- The state of the shared server. -/
structure Redis where
  keys : List (String × KeyEntry)
  pending : List PendingEntry
  log : List Cmd
  deriving DecidableEq, Repr

/-- Arguments of `XCLAIM` (`redis.XClaimArgs`). -/
structure XClaimArgs where
  Stream : String
  Group : String
  Consumer : String
  MinIdle : Nat
  Messages : List String
  deriving DecidableEq, Repr

/-- The command `XCLAIM`: every listed pending entry of the group that has been idle for
at least `MinIdle` is reassigned to `Consumer`.  `fault` is the error of a command that
fails; a failed command changes nothing on the server. -/
def XClaim (rd : Redis) (a : XClaimArgs) (fault : Option String) : Option GoError × Redis :=
  let rd1 := { rd with log := rd.log ++ [Cmd.XClaim a.Stream a.Group a.Consumer a.MinIdle a.Messages] }
  match fault with
  | some msg => (some (.redis msg), rd1)
  | none =>
    (none, { rd1 with pending := rd1.pending.map (fun e =>
      if e.stream = a.Stream ∧ e.group = a.Group ∧ e.id ∈ a.Messages ∧ a.MinIdle ≤ e.idle then
        { e with consumer := a.Consumer, idle := 0 }
      else e) })

/-- The command `XACK`: the entry leaves the pending list of the group. -/
def XAck (rd : Redis) (stream group id : String) (fault : Option String) :
    Option GoError × Redis :=
  let rd1 := { rd with log := rd.log ++ [Cmd.XAck stream group id] }
  match fault with
  | some msg => (some (.redis msg), rd1)
  | none =>
    (none, { rd1 with pending := rd1.pending.filter (fun e =>
      decide (¬ (e.stream = stream ∧ e.group = group ∧ e.id = id))) })

/-! ## The lock library (redsync) on one server -/

/-- A `redsync.Mutex` as `Claim` configures it. -/
structure Mutex where
  /-- The key of the lock. -/
  name : String
  /-- `WithExpiry`. -/
  expiry : Nat
  /-- The number of attempts of `Lock`. -/
  tries : Nat
  /-- The result of the function given to `WithGenValueFunc`. -/
  genValue : String
  /-- The value the lock was taken with; set by `Lock`. -/
  value : String
  deriving DecidableEq, Repr

/-- The error `ErrFailed` of the lock library. -/
def ErrFailed : GoError := .errorString "redsync: failed to acquire lock"

/-- The TTL, in whole milliseconds, that the client's `SetNX(key, value, expiry)` asks
for, `expiry` being a duration in nanoseconds: a zero duration sends `SETNX` without a
TTL, a duration under one millisecond is raised to one millisecond, and any other
duration is cut to its whole milliseconds (whole seconds are sent as seconds). -/
def setNXTTL (expiry : Nat) : Option Nat :=
  if expiry = 0 then none
  else if expiry < 1000000 then some 1
  else some (expiry / 1000000)

/-- One attempt to take the lock: `SET name value NX` with the TTL `setNXTTL expiry`. -/
def acquire (rd : Redis) (m : Mutex) (value : String) : Bool × Redis :=
  let rd1 := { rd with log := rd.log ++ [Cmd.SetNX m.name value (setNXTTL m.expiry)] }
  match mapGet rd.keys m.name with
  | some _ => (false, rd1)
  | none => (true, { rd1 with keys := mapSet rd1.keys m.name ⟨value, setNXTTL m.expiry⟩ })

/-- The delete script: the key is deleted when it holds `value` (status `1`); the status
is `-1` when the key is missing and `0` when it holds another value. -/
def release (rd : Redis) (m : Mutex) (value : String) : Int × Redis :=
  let rd1 := { rd with log := rd.log ++ [Cmd.EvalDelete m.name value] }
  match mapGet rd.keys m.name with
  | some e =>
    if e.value = value then (1, { rd1 with keys := mapDelete rd1.keys m.name })
    else (0, rd1)
  | none => (-1, rd1)

/-- The extend script chosen by `WithSetNXOnExtend`, called with
`int(expiry / time.Millisecond)` milliseconds.  When the key holds `value` the script
runs `PEXPIRE key ms`, which renews the TTL, and deletes the key when `ms` is zero.
When the key is missing the script runs `SET key value PX ms NX`, which creates the
key, and is an error that changes nothing when `ms` is zero.  A key with another value
is left alone. -/
def touch (rd : Redis) (m : Mutex) (value : String) : Bool × Redis :=
  let ms := m.expiry / 1000000
  let rd1 := { rd with log := rd.log ++ [Cmd.EvalTouch m.name value ms] }
  match mapGet rd.keys m.name with
  | some e =>
    if e.value = value then
      if ms = 0 then (true, { rd1 with keys := mapDelete rd1.keys m.name })
      else (true, { rd1 with keys := mapSet rd1.keys m.name ⟨value, some ms⟩ })
    else (false, rd1)
  | none =>
    if ms = 0 then (false, rd1)
    else (true, { rd1 with keys := mapSet rd1.keys m.name ⟨value, some ms⟩ })

/-- The loop of `Lock`, with the number of attempts left: an attempt that does not take
the lock is followed by `release` with the caller's own value, and the last failed
attempt returns the error of `acquire`. -/
def lockLoop (m : Mutex) (value : String) : Nat → Redis → Option GoError × Redis
  | 0, rd => (some ErrFailed, rd)
  | n + 1, rd =>
    match acquire rd m value with
    | (true, rd1) => (none, rd1)
    | (false, rd1) =>
      let rd2 := (release rd1 m value).2
      if n = 0 then (some .ErrTaken, rd2) else lockLoop m value n rd2

/-- The method `Mutex.Lock`. -/
def Mutex.Lock (m : Mutex) (rd : Redis) : Option GoError × Mutex × Redis :=
  match lockLoop m m.genValue m.tries rd with
  | (none, rd1) => (none, { m with value := m.genValue }, rd1)
  | (some err, rd1) => (some err, m, rd1)

/-- The method `Mutex.Extend`. -/
def Mutex.Extend (m : Mutex) (rd : Redis) : Bool × Redis :=
  touch rd m m.value

/-- The method `Mutex.Unlock`: the boolean and the error it returns, and the server. -/
def Mutex.Unlock (m : Mutex) (rd : Redis) : (Bool × Option GoError) × Redis :=
  match release rd m m.value with
  | (status, rd1) =>
    if status = -1 then ((false, some (.wrapped ErrLockAlreadyExpired)), rd1)
    else if status = 0 then ((false, some .ErrTaken), rd1)
    else ((true, none), rd1)

/-! ## The client -/

/-- A Go channel of messages: its identity, its buffered messages, whether it is closed. -/
structure Chan where
  id : Nat
  buf : List String
  closed : Bool
  deriving DecidableEq, Repr

/-- A `redis.PubSub` subscription: whether it is closed, and the channel it feeds. -/
structure PubSub where
  closed : Bool
  ch : Nat
  deriving DecidableEq, Repr

/-- The ownership record `types.LBSInfo`. -/
structure LBSInfo where
  DataStreamName : String
  IDInLBS : String
  Mutex : Mutex
  deriving DecidableEq, Repr

/-- The struct `ReliableRedisStreamClient`; the Redis connection is the `Redis` argument
of the operations. -/
structure ReliableRedisStreamClient where
  consumerID : String
  kspChan : Chan
  lbsChan : Chan
  hbInterval : Nat
  streamLocks : List (String × LBSInfo)
  serviceName : String
  pubSub : Option PubSub
  deriving DecidableEq, Repr

/-- Modelled from the spec: the constant `types.GroupSuffix`, whose package is missing;
the group is named `"<service>-group"`. -/
def GroupSuffix : String := "-group"

/-- Modelled from the spec: the constant `types.InputSuffix`, whose package is missing;
the stream is named `"<service>-input"`. -/
def InputSuffix : String := "-input"

/-- The helper `lbsGroupName`. -/
def lbsGroupName (r : ReliableRedisStreamClient) : String :=
  r.serviceName ++ GroupSuffix

/-- The helper `lbsName`. -/
def lbsName (r : ReliableRedisStreamClient) : String :=
  r.serviceName ++ InputSuffix

/-- The mutex `Claim` creates: `rs.NewMutex(name, WithExpiry(hbInterval), WithFailFast,
WithRetryDelay, WithSetNXOnExtend, WithGenValueFunc(consumerID))`; the number of
attempts is the library's default. -/
def NewMutex (r : ReliableRedisStreamClient) (name : String) : Mutex :=
  { name := name, expiry := r.hbInterval, tries := 32, genValue := r.consumerID, value := "" }

/-- The method `Claim`.  `xclaimFault` is the error of the `XCLAIM` command when it fails. -/
def Claim (r : ReliableRedisStreamClient) (rd : Redis) (expiredStreamName newConsumerID : String)
    (xclaimFault : Option String) :
    Outcome (Option GoError × ReliableRedisStreamClient × Redis) :=
  let parts := Split expiredStreamName ':'
  match parts[0]? with
  | none => .panicked "index out of range [0]"
  | some streamName =>
    match parts[1]? with
    | none => .panicked "index out of range [1] with length 1"
    | some idInLBS =>
      match (NewMutex r expiredStreamName).Lock rd with
      | (some err, _, rd1) => .returned (some err, r, rd1)
      | (none, mutex, rd1) =>
        let rd2 := (mutex.Extend rd1).2
        let lbsInfo : LBSInfo :=
          { DataStreamName := streamName, IDInLBS := idInLBS, Mutex := mutex }
        let r1 := { r with streamLocks := mapSet r.streamLocks streamName lbsInfo }
        let args : XClaimArgs :=
          { Stream := lbsName r, Group := lbsGroupName r, Consumer := newConsumerID,
            MinIdle := 0, Messages := [idInLBS] }
        match XClaim rd2 args xclaimFault with
        | (some err, rd3) => .returned (some err, r1, rd3)
        | (none, rd3) => .returned (none, r1, rd3)

/-- The method `Done`.  `xackFault` is the error of the `XACK` command when it fails. -/
def Done (r : ReliableRedisStreamClient) (rd : Redis) (streamName : String)
    (xackFault : Option String) : Option GoError × ReliableRedisStreamClient × Redis :=
  match mapGet r.streamLocks streamName with
  | none => (some (.errorString "stream not found"), r, rd)
  | some lbsInfo =>
    match lbsInfo.Mutex.Unlock rd with
    | ((ok, err), rd1) =>
      if err ≠ none ∧ err.bind GoError.Unwrap ≠ some ErrLockAlreadyExpired then (err, r, rd1)
      else
        match XAck rd1 (lbsName r) (lbsGroupName r) lbsInfo.IDInLBS xackFault with
        | (some e, rd2) => (some e, r, rd2)
        | (none, rd2) =>
          if ok then (none, { r with streamLocks := mapDelete r.streamLocks streamName }, rd2)
          else (none, r, rd2)

/-- The method `Close`: `close(r.lbsChan)`, then `r.pubSub.Close()`, which closes the
channel the subscription feeds, then the loop that drains `r.kspChan` until it is
closed. -/
def Close (r : ReliableRedisStreamClient) : Outcome ReliableRedisStreamClient :=
  if r.lbsChan.closed then .panicked "close of closed channel"
  else
    let r1 := { r with lbsChan := { r.lbsChan with closed := true } }
    match r1.pubSub with
    | none => .panicked "invalid memory address or nil pointer dereference"
    | some ps =>
      let r2 := { r1 with
        pubSub := some { ps with closed := true },
        kspChan := if r1.kspChan.id = ps.ch then { r1.kspChan with closed := true } else r1.kspChan }
      if r2.kspChan.closed then .returned { r2 with kspChan := { r2.kspChan with buf := [] } }
      else .blocked

/-! ## Construction and initialisation -/

/-- Modelled from the spec: the constant `types.RedisConsumerPrefix`, whose package is
missing; consumers are named `"redis-consumer-<identity>"`. -/
def RedisConsumerPrefix : String := "redis-consumer-"

/-- The constructor `NewRedisStreamClient`; `podName` and `podIP` are the values of the
environment variables, and durations are counted in nanoseconds. -/
def NewRedisStreamClient (podName podIP : String) (hbInterval : Nat) (serviceName : String) :
    Outcome ReliableRedisStreamClient :=
  if podName = "" ∧ podIP = "" then .panicked "POD_NAME or POD_IP not set"
  else
    let consumerID :=
      if podName.length > 0 then RedisConsumerPrefix ++ podName else RedisConsumerPrefix ++ podIP
    let hb := if hbInterval = 0 then 1000000000 else hbInterval
    .returned
      { consumerID := consumerID, kspChan := ⟨0, [], false⟩, lbsChan := ⟨1, [], false⟩,
        hbInterval := hb, streamLocks := [], serviceName := serviceName, pubSub := none }

/-- The client together with the server it talks to. -/
abbrev World := ReliableRedisStreamClient × Redis

/-- A method `func(ctx) error` of the client, as `checkErr` receives it. -/
abbrev InitStep := World → Option GoError × World

/-- A value of type `*ReliableRedisStreamClient`: `nil`, or the pointer to the client. -/
inductive ClientPtr where
  | nil
  | client
  deriving DecidableEq, Repr

/-- The helper `checkErr`. -/
def checkErr (r : ClientPtr) (fn : InitStep) (w : World) : ClientPtr × World :=
  match r with
  | .nil => (.nil, w)
  | .client =>
    match fn w with
    | (some _, w1) => (.nil, w1)
    | (none, w1) => (.client, w1)

/-- What `Init` returns, whether it executed `go r.readLBSStream(ctx)`, and the state. -/
structure InitResult where
  lbsChan : Option Chan
  kspChan : Option Chan
  err : Option GoError
  readerStarted : Bool
  world : World
  deriving DecidableEq, Repr

/-- The method `Init`, over the two methods it hands to `checkErr`,
`r.enableKeyspaceNotifsForExpiredEvents` and `r.subscribeToExpiredEvents`, whose bodies
are not part of the sources at hand. -/
def Init (enableStep subscribeStep : InitStep) (w : World) : InitResult :=
  match checkErr .client enableStep w with
  | (p1, w1) =>
    match checkErr p1 subscribeStep w1 with
    | (p2, w2) =>
      if p2 = .nil then
        { lbsChan := none, kspChan := none,
          err := some (.errorString "error initializing the client"),
          readerStarted := false, world := w2 }
      else
        { lbsChan := some w2.1.lbsChan, kspChan := some w2.1.kspChan, err := none,
          readerStarted := true, world := w2 }

/-- Modelled from the spec: the method `enableKeyspaceNotifsForExpiredEvents`, missing
from the sources: it sets the notification flags that enable expired-key events. -/
def enableKeyspaceNotifsForExpiredEvents (fault : Option String) : InitStep := fun w =>
  let rd1 := { w.2 with log := w.2.log ++ [Cmd.ConfigSet "notify-keyspace-events" "Ex"] }
  match fault with
  | some msg => (some (.redis msg), (w.1, rd1))
  | none => (none, (w.1, rd1))

/-- Modelled from the spec: the method `subscribeToExpiredEvents`, missing from the
sources: it pattern-subscribes to the expired-event channel and keeps the subscription
and its message channel in the client. -/
def subscribeToExpiredEvents (fault : Option String) : InitStep := fun w =>
  let rd1 := { w.2 with log := w.2.log ++ [Cmd.PSubscribe "__keyevent@0__:expired"] }
  match fault with
  | some msg => (some (.redis msg), (w.1, rd1))
  | none => (none, ({ w.1 with pubSub := some ⟨false, 2⟩, kspChan := ⟨2, [], false⟩ }, rd1))

/-! ## Several workers on one server -/

/-- The shared server and the workers; `W` names the workers. -/
structure System (W : Type) where
  redis : Redis
  clients : W → ReliableRedisStreamClient

/-- A call of one worker. -/
inductive Call (W : Type) where
  | claim (worker : W) (expiredStreamName newConsumerID : String)
      (xclaimFault : Option String)
  | done (worker : W) (streamName : String) (xackFault : Option String)

/-- The effect of one call on the system.  A call that panics has changed nothing when
it panics. -/
def System.step {W : Type} [DecidableEq W] (s : System W) : Call W → System W
  | .claim w key newConsumerID fault =>
    match Claim (s.clients w) s.redis key newConsumerID fault with
    | .returned (_, r, rd) => { redis := rd, clients := Function.update s.clients w r }
    | _ => s
  | .done w streamName fault =>
    match Done (s.clients w) s.redis streamName fault with
    | (_, r, rd) => { redis := rd, clients := Function.update s.clients w r }

/-- The system after a sequence of calls. -/
def System.run {W : Type} [DecidableEq W] (s : System W) (calls : List (Call W)) : System W :=
  calls.foldl System.step s

/-- Whether the call is a `Done` whose acknowledge command fails. -/
def Call.ackFails {W : Type} : Call W → Bool
  | .done _ _ (some _) => true
  | _ => false

/-! ## Predicates on states -/

/-- The key `k` exists on the server with value `v`. -/
def holds (rd : Redis) (k v : String) : Prop :=
  ∃ e, mapGet rd.keys k = some e ∧ e.value = v

/-- The mutex a successful `Claim` stores in the ownership record. -/
def heldMutex (r : ReliableRedisStreamClient) (key : String) : Mutex :=
  { name := key, expiry := r.hbInterval, tries := 32, genValue := r.consumerID,
    value := r.consumerID }

/-- The arguments of the `XCLAIM` command of `Claim`. -/
def claimArgs (r : ReliableRedisStreamClient) (newConsumerID idInLBS : String) : XClaimArgs :=
  { Stream := lbsName r, Group := lbsGroupName r, Consumer := newConsumerID, MinIdle := 0,
    Messages := [idInLBS] }

/-- The server after it received the command `c`. -/
def logged (rd : Redis) (c : Cmd) : Redis := { rd with log := rd.log ++ [c] }

/-- The worker that `createConsumer("222", ...)` of the tests builds, after `Init`. -/
def worker222 : ReliableRedisStreamClient :=
  { consumerID := "redis-consumer-222", kspChan := ⟨2, [], false⟩, lbsChan := ⟨1, [], false⟩,
    hbInterval := 20000000, streamLocks := [], serviceName := "consumer",
    pubSub := some ⟨false, 2⟩ }

/-- The worker that `createConsumer("333", ...)` of the tests builds, after `Init`. -/
def worker333 : ReliableRedisStreamClient :=
  { worker222 with consumerID := "redis-consumer-333" }

/-- A server on which the heartbeat key of `session1` has expired: no key exists, and
the ingress entry `0` is still pending for the crashed consumer `redis-consumer-111`. -/
def serverAfterExpiry : Redis :=
  { keys := [],
    pending := [⟨"consumer-input", "consumer-group", "0", "redis-consumer-111", 0⟩],
    log := [] }

/-- The ownership record of `session1` under the heartbeat key `session1:0`, as held by
the worker with consumer id `redis-consumer-222`. -/
def session1Info : LBSInfo :=
  { DataStreamName := "session1", IDInLBS := "0", Mutex := heldMutex worker222 "session1:0" }

/-- The worker `worker222` once it has registered `session1`. -/
def worker222Owning : ReliableRedisStreamClient :=
  { worker222 with streamLocks := [("session1", session1Info)] }

/-- The server after `worker222` took the key `session1:0` on `serverAfterExpiry` and
reassigned the entry `0` to `consumer`. -/
def serverAfterClaim (consumer : String) : Redis :=
  { keys := [("session1:0", ⟨"redis-consumer-222", some 20⟩)],
    pending := [⟨"consumer-input", "consumer-group", "0", consumer, 0⟩],
    log := [Cmd.SetNX "session1:0" "redis-consumer-222" (some 20),
            Cmd.EvalTouch "session1:0" "redis-consumer-222" 20,
            Cmd.XClaim "consumer-input" "consumer-group" consumer 0 ["0"]] }

/-- Every registered session of every worker was registered by a `Claim` of that worker
for a key that starts with the session's name, and the key still holds the worker's
consumer id. -/
def System.Registered {W : Type} (s : System W) : Prop :=
  ∀ w n info, mapGet (s.clients w).streamLocks n = some info →
    info.Mutex.value = (s.clients w).consumerID ∧
    (Split info.Mutex.name ':')[0]? = some n ∧
    holds s.redis info.Mutex.name (s.clients w).consumerID

/-- The worker `worker222` after a `Close` that returned. -/
def worker222Closed : ReliableRedisStreamClient :=
  { worker222 with
    lbsChan := ⟨1, [], true⟩, kspChan := ⟨2, [], true⟩, pubSub := some ⟨true, 2⟩ }

/-- Two workers, `worker222` (named `false`) and `worker333` (named `true`), on a server
without keys. -/
def twoWorkers : System Bool :=
  { redis := serverAfterExpiry, clients := fun w => if w then worker333 else worker222 }

/-- The two workers of `twoWorkers` with a heartbeat interval of half a millisecond. -/
def twoShortIntervalWorkers : System Bool :=
  { redis := serverAfterExpiry,
    clients := fun w =>
      if w then { worker333 with hbInterval := 500000 }
      else { worker222 with hbInterval := 500000 } }

/-- The two workers claim two heartbeat keys of the same session `session1`. -/
def twoClaims : List (Call Bool) :=
  [.claim false "session1:0" "redis-consumer-222" none,
   .claim true "session1:1" "redis-consumer-333" none]

/-- The ownership record of `session1` under the heartbeat key `session1:1`, as held by
the worker with consumer id `redis-consumer-333`. -/
def session1Info333 : LBSInfo :=
  { DataStreamName := "session1", IDInLBS := "1", Mutex := heldMutex worker333 "session1:1" }

/-! ## Maps and `strings.Split` -/

theorem mapGet_mapDelete {V : Type} (m : List (String × V)) (k k' : String) :
    mapGet (mapDelete m k) k' = if k' = k then none else mapGet m k' := by
  induction m with
  | nil => simp [mapDelete, mapGet]
  | cons p rest ih =>
    obtain ⟨a, v⟩ := p
    unfold mapDelete at ih ⊢
    by_cases ha : a = k
    · subst ha
      simp only [List.filter, ne_eq, not_true_eq_false, decide_False]
      rw [ih]
      by_cases hk : k' = a
      · simp [hk]
      · simp [hk, mapGet]
    · simp only [List.filter, ne_eq, ha, not_false_eq_true, decide_True]
      simp only [mapGet]
      rw [ih]
      by_cases hk : k' = k
      · subst hk
        have : ¬ k' = a := fun h => ha h.symm
        simp [this]
      · simp [hk]

theorem mapGet_mapSet {V : Type} (m : List (String × V)) (k k' : String) (v : V) :
    mapGet (mapSet m k v) k' = if k' = k then some v else mapGet m k' := by
  unfold mapSet
  simp only [mapGet]
  by_cases hk : k' = k
  · simp [hk]
  · simp [hk, mapGet_mapDelete]

theorem splitChars_eq (sep : Char) (l : List Char) :
    splitChars sep l = l.takeWhile (fun c => !decide (c = sep)) ::
      (match l.dropWhile (fun c => !decide (c = sep)) with
       | [] => []
       | _ :: rest => splitChars sep rest) := by
  induction l with
  | nil => simp [splitChars]
  | cons c cs ih =>
    by_cases h : c = sep
    · subst h
      simp [splitChars, List.takeWhile, List.dropWhile]
    · rw [splitChars, if_neg h, ih]
      simp [List.takeWhile, List.dropWhile, h]

theorem splitChars_head (sep : Char) (l : List Char) :
    (splitChars sep l)[0]? = some (l.takeWhile (fun c => !decide (c = sep))) := by
  rw [splitChars_eq]; simp

theorem splitChars_second (sep : Char) (l : List Char) :
    (splitChars sep l)[1]? =
      match l.dropWhile (fun c => !decide (c = sep)) with
      | [] => none
      | _ :: rest => some (rest.takeWhile (fun c => !decide (c = sep))) := by
  rw [splitChars_eq]
  cases h : l.dropWhile (fun c => !decide (c = sep)) with
  | nil => simp
  | cons d rest =>
    simp only [List.getElem?_cons_succ]
    exact splitChars_head sep rest

theorem takeWhile_ne_eq_self (sep : Char) (l : List Char) :
    l.takeWhile (fun c => !decide (c = sep)) = l ↔ sep ∉ l := by
  induction l with
  | nil => simp
  | cons c cs ih =>
    by_cases h : c = sep
    · subst h; simp [List.takeWhile]
    · have h' : ¬ sep = c := fun e => h e.symm
      simp only [List.takeWhile, h, decide_False, Bool.not_false, List.cons.injEq, true_and, ih,
        List.mem_cons, h', false_or]

theorem takeWhile_append_sep (sep : Char) (n i : List Char) (h : sep ∉ n) :
    (n ++ sep :: i).takeWhile (fun c => !decide (c = sep)) = n := by
  induction n with
  | nil => simp [List.takeWhile]
  | cons c cs ih =>
    have hc : c ≠ sep := fun e => h (by simp [e])
    have hcs : sep ∉ cs := fun e => h (by simp [e])
    simpa [List.takeWhile, hc] using ih hcs

theorem dropWhile_append_sep (sep : Char) (n i : List Char) (h : sep ∉ n) :
    (n ++ sep :: i).dropWhile (fun c => !decide (c = sep)) = sep :: i := by
  induction n with
  | nil => simp [List.dropWhile]
  | cons c cs ih =>
    have hc : c ≠ sep := fun e => h (by simp [e])
    have hcs : sep ∉ cs := fun e => h (by simp [e])
    simpa [List.dropWhile, hc] using ih hcs

theorem sep_not_mem_takeWhile (sep : Char) (l : List Char) :
    sep ∉ l.takeWhile (fun c => !decide (c = sep)) := by
  intro h
  have := List.mem_takeWhile_imp h
  simp at this


theorem split_first (s : String) :
    (Split s ':')[0]? = some ⟨s.data.takeWhile (fun c => !decide (c = ':'))⟩ := by
  simp [Split, List.getElem?_map, splitChars_head]

theorem split_second (s : String) :
    (Split s ':')[1]? =
      match s.data.dropWhile (fun c => !decide (c = ':')) with
      | [] => none
      | _ :: rest => some ⟨rest.takeWhile (fun c => !decide (c = ':'))⟩ := by
  simp only [Split, List.getElem?_map, splitChars_second]
  cases s.data.dropWhile (fun c => !decide (c = ':')) <;> rfl

theorem split_second_none (s : String) (h : ':' ∉ s.data) : (Split s ':')[1]? = none := by
  rw [split_second]
  have : s.data.dropWhile (fun c => !decide (c = ':')) = [] := by
    rw [List.dropWhile_eq_nil_iff]
    intro x hx
    have : x ≠ ':' := fun e => h (e ▸ hx)
    simp [this]
  rw [this]

/-! ## The lock library -/

/-- `acquire` keeps every key that exists. -/
theorem acquire_keeps (rd : Redis) (m : Mutex) (v k : String) (e : KeyEntry)
    (h : mapGet rd.keys k = some e) : mapGet (acquire rd m v).2.keys k = some e := by
  unfold acquire
  cases hm : mapGet rd.keys m.name with
  | some e' => simpa using h
  | none =>
    have hk : k ≠ m.name := fun eq => by rw [eq, hm] at h; exact absurd h (by simp)
    simp [mapGet_mapSet, hk, h]

theorem acquire_true (rd : Redis) (m : Mutex) (v : String) (rd1 : Redis)
    (h : acquire rd m v = (true, rd1)) :
    mapGet rd1.keys m.name = some ⟨v, setNXTTL m.expiry⟩ := by
  unfold acquire at h
  cases hm : mapGet rd.keys m.name with
  | some e' => simp [hm] at h
  | none =>
    simp only [hm, Prod.mk.injEq, true_and] at h
    rw [← h]
    simp [mapGet_mapSet]

theorem acquire_false (rd : Redis) (m : Mutex) (v : String) (rd1 : Redis)
    (h : acquire rd m v = (false, rd1)) :
    rd1.keys = rd.keys ∧ ∃ e, mapGet rd.keys m.name = some e := by
  unfold acquire at h
  cases hm : mapGet rd.keys m.name with
  | some e' =>
    simp only [hm, Prod.mk.injEq, true_and] at h
    rw [← h]
    exact ⟨rfl, e', rfl⟩
  | none => simp [hm] at h

/-- `release` with value `v` keeps every key that holds another value or has another name. -/
theorem release_keeps (rd : Redis) (m : Mutex) (v k : String) (e : KeyEntry)
    (h : mapGet rd.keys k = some e) (hne : e.value ≠ v ∨ k ≠ m.name) :
    mapGet (release rd m v).2.keys k = some e := by
  unfold release
  cases hm : mapGet rd.keys m.name with
  | none => simpa using h
  | some e' =>
    by_cases hv : e'.value = v
    · have hk : k ≠ m.name := by
        rcases hne with hne | hne
        · intro eq
          rw [eq, hm] at h
          have : e' = e := Option.some.inj h
          exact hne (this ▸ hv)
        · exact hne
      simp [hv, mapGet_mapDelete, hk, h]
    · simpa [hv] using h

theorem release_own (rd : Redis) (m : Mutex) (v : String) (e : KeyEntry)
    (h : mapGet rd.keys m.name = some e) (hv : e.value = v) :
    mapGet (release rd m v).2.keys m.name = none ∧ (release rd m v).1 = 1 := by
  unfold release
  simp [h, hv, mapGet_mapDelete]

/-- `touch` with value `v` keeps every key that holds another value or has another name. -/
theorem touch_keeps (rd : Redis) (m : Mutex) (v k : String) (e : KeyEntry)
    (h : mapGet rd.keys k = some e) (hne : e.value ≠ v ∨ k ≠ m.name) :
    mapGet (touch rd m v).2.keys k = some e := by
  unfold touch
  cases hm : mapGet rd.keys m.name with
  | none =>
    have hk : k ≠ m.name := fun eq => by rw [eq, hm] at h; exact absurd h (by simp)
    by_cases hms : m.expiry / 1000000 = 0
    · simp [hms, h]
    · simp [hms, mapGet_mapSet, hk, h]
  | some e' =>
    by_cases hv : e'.value = v
    · have hk : k ≠ m.name := by
        rcases hne with hne | hne
        · intro eq
          rw [eq, hm] at h
          have : e' = e := Option.some.inj h
          exact hne (this ▸ hv)
        · exact hne
      by_cases hms : m.expiry / 1000000 = 0
      · simp [hv, hms, mapGet_mapDelete, hk, h]
      · simp [hv, hms, mapGet_mapSet, hk, h]
    · simpa [hv] using h

/-- With an expiry of one millisecond or more, `touch` on a key that holds `v` leaves
it with the expiry cut to whole milliseconds as TTL. -/
theorem touch_own (rd : Redis) (m : Mutex) (v : String) (e : KeyEntry)
    (h : mapGet rd.keys m.name = some e) (hv : e.value = v) (hms : 1000000 ≤ m.expiry) :
    mapGet (touch rd m v).2.keys m.name = some ⟨v, some (m.expiry / 1000000)⟩ := by
  have hpos : ¬ m.expiry / 1000000 = 0 := by
    have : 1 ≤ m.expiry / 1000000 := (Nat.le_div_iff_mul_le (by norm_num)).2 (by omega)
    omega
  unfold touch
  simp [h, hv, hpos, mapGet_mapSet]

/-- With an expiry under one millisecond, `touch` on a key that holds `v` deletes it. -/
theorem touch_own_deletes (rd : Redis) (m : Mutex) (v : String) (e : KeyEntry)
    (h : mapGet rd.keys m.name = some e) (hv : e.value = v) (hms : m.expiry < 1000000) :
    mapGet (touch rd m v).2.keys m.name = none := by
  have hzero : m.expiry / 1000000 = 0 := Nat.div_eq_of_lt hms
  unfold touch
  simp [h, hv, hzero, mapGet_mapDelete]

/-- A successful `Lock` loop leaves the key with the caller's value and the TTL of
`SET NX`. -/
theorem lockLoop_success (m : Mutex) (v : String) (n : Nat) (rd rd1 : Redis)
    (h : lockLoop m v n rd = (none, rd1)) :
    mapGet rd1.keys m.name = some ⟨v, setNXTTL m.expiry⟩ := by
  induction n generalizing rd with
  | zero => simp [lockLoop, ErrFailed] at h
  | succ n ih =>
    rw [lockLoop] at h
    rcases ha : acquire rd m v with ⟨b, rda⟩
    rw [ha] at h
    cases b with
    | true =>
      simp only [Prod.mk.injEq, true_and] at h
      rw [← h]
      exact acquire_true rd m v rda ha
    | false =>
      simp only at h
      by_cases hn : n = 0
      · simp [hn] at h
      · rw [if_neg hn] at h
        exact ih _ h

/-- The `Lock` loop keeps every key that holds another value or has another name. -/
theorem lockLoop_keeps (m : Mutex) (v : String) (n : Nat) (rd : Redis) (k : String)
    (e : KeyEntry) (h : mapGet rd.keys k = some e) (hne : e.value ≠ v ∨ k ≠ m.name) :
    mapGet (lockLoop m v n rd).2.keys k = some e := by
  induction n generalizing rd with
  | zero => simpa [lockLoop] using h
  | succ n ih =>
    rw [lockLoop]
    rcases ha : acquire rd m v with ⟨b, rda⟩
    have hk := acquire_keeps rd m v k e h
    rw [ha] at hk
    cases b with
    | true => simpa using hk
    | false =>
      simp only
      have hr := release_keeps rda m v k e hk hne
      by_cases hn : n = 0
      · simpa [hn] using hr
      · rw [if_neg hn]
        exact ih _ hr

/-- With the key absent, the first attempt takes the lock. -/
theorem lockLoop_absent (m : Mutex) (v : String) (n : Nat) (rd : Redis)
    (h : mapGet rd.keys m.name = none) :
    (lockLoop m v (n + 1) rd).1 = none := by
  rw [lockLoop]
  simp [acquire, h]

/-- With the key held under the caller's own value and two attempts or more, the first
attempt fails, its `release` deletes the key, and the second attempt takes the lock. -/
theorem lockLoop_own (m : Mutex) (v : String) (n : Nat) (rd : Redis) (e : KeyEntry)
    (h : mapGet rd.keys m.name = some e) (hv : e.value = v) :
    (lockLoop m v (n + 2) rd).1 = none := by
  rw [lockLoop]
  rcases ha : acquire rd m v with ⟨b, rda⟩
  cases b with
  | true => rfl
  | false =>
    simp only [Nat.add_eq_zero, one_ne_zero, and_false, if_false]
    have hf := acquire_false rd m v rda ha
    have hr := release_own rda m v e (by rw [hf.1]; exact h) hv
    exact lockLoop_absent m v n _ hr.1

/-- With the key held under another value, every attempt fails, the server keeps its
keys, and the loop ends with `ErrTaken`. -/
theorem lockLoop_taken (m : Mutex) (v : String) (n : Nat) (rd : Redis) (e : KeyEntry)
    (h : mapGet rd.keys m.name = some e) (hv : e.value ≠ v) :
    (lockLoop m v (n + 1) rd).1 = some .ErrTaken ∧ (lockLoop m v (n + 1) rd).2.keys = rd.keys := by
  induction n generalizing rd with
  | zero =>
    rw [lockLoop]
    simp [acquire, h, release, hv]
  | succ n ih =>
    rw [lockLoop]
    simp only [acquire, h, Nat.add_eq_zero, one_ne_zero, and_false, if_false]
    have hrel : ∀ rd' : Redis, rd'.keys = rd.keys → (release rd' m v).2.keys = rd.keys := by
      intro rd' hk
      simp [release, hk, h, hv]
    have e1 := hrel { rd with log := rd.log ++ [Cmd.SetNX m.name v (setNXTTL m.expiry)] } rfl
    have := ih (release { rd with log := rd.log ++ [Cmd.SetNX m.name v (setNXTTL m.expiry)] }
      m v).2
      (by rw [e1]; exact h)
    rw [e1] at this
    exact this


/-! ## `Claim` and `Done` -/

theorem XClaim_keys (rd : Redis) (a : XClaimArgs) (f : Option String) :
    (XClaim rd a f).2.keys = rd.keys := by
  unfold XClaim; cases f <;> rfl

theorem XAck_keys (rd : Redis) (s g i : String) (f : Option String) :
    (XAck rd s g i f).2.keys = rd.keys := by
  unfold XAck; cases f <;> rfl

/-- The two ways a `Claim` returns: the lock is not taken and the client is unchanged,
or the lock is taken, extended, registered, and the result is that of `XCLAIM`. -/
theorem Claim_returned (r : ReliableRedisStreamClient) (rd : Redis) (key c : String)
    (f : Option String) (err : Option GoError) (r1 : ReliableRedisStreamClient) (rd1 : Redis)
    (h : Claim r rd key c f = .returned (err, r1, rd1)) :
    ∃ name id, (Split key ':')[0]? = some name ∧ (Split key ':')[1]? = some id ∧
      ((err ≠ none ∧ lockLoop (NewMutex r key) r.consumerID 32 rd = (err, rd1) ∧ r1 = r) ∨
       (∃ rdl, lockLoop (NewMutex r key) r.consumerID 32 rd = (none, rdl) ∧
          r1 = { r with
            streamLocks := mapSet r.streamLocks name ⟨name, id, heldMutex r key⟩ } ∧
          XClaim (touch rdl (heldMutex r key) r.consumerID).2 (claimArgs r c id) f
            = (err, rd1))) := by
  unfold Claim at h
  simp only at h
  cases h0 : (Split key ':')[0]? with
  | none => simp [h0] at h
  | some name =>
    cases h1 : (Split key ':')[1]? with
    | none => simp [h0, h1] at h
    | some id =>
      refine ⟨name, id, rfl, rfl, ?_⟩
      simp only [h0, h1, Mutex.Lock] at h
      rcases hl : lockLoop (NewMutex r key) (NewMutex r key).genValue (NewMutex r key).tries rd
        with ⟨e, rdl⟩
      rw [hl] at h
      have hl' : lockLoop (NewMutex r key) r.consumerID 32 rd = (e, rdl) := hl
      cases e with
      | some e' =>
        simp only [Outcome.returned.injEq, Prod.mk.injEq] at h
        obtain ⟨he, hr, hrd⟩ := h
        left
        subst he hr hrd
        exact ⟨by simp, hl', rfl⟩
      | none =>
        right
        refine ⟨rdl, hl', ?_⟩
        simp only [Mutex.Extend] at h
        rcases hx : XClaim (touch rdl (heldMutex r key) r.consumerID).2 (claimArgs r c id) f
          with ⟨ex, rdx⟩
        have hx' : XClaim (touch rdl { NewMutex r key with value := (NewMutex r key).genValue }
            (NewMutex r key).genValue).2
            { Stream := lbsName r, Group := lbsGroupName r, Consumer := c, MinIdle := 0,
              Messages := [id] } f = (ex, rdx) := hx
        rw [hx'] at h
        cases ex with
        | some e' =>
          simp only [Outcome.returned.injEq, Prod.mk.injEq] at h
          obtain ⟨he, hr, hrd⟩ := h
          subst he hr hrd
          exact ⟨rfl, rfl⟩
        | none =>
          simp only [Outcome.returned.injEq, Prod.mk.injEq] at h
          obtain ⟨he, hr, hrd⟩ := h
          subst he hr hrd
          exact ⟨rfl, rfl⟩


/-- `Claim` on a key with two parts or more, by the result of the lock loop. -/
theorem Claim_of_parts (r : ReliableRedisStreamClient) (rd : Redis) (key c : String)
    (f : Option String) (name id : String)
    (h0 : (Split key ':')[0]? = some name) (h1 : (Split key ':')[1]? = some id) :
    Claim r rd key c f =
      match lockLoop (NewMutex r key) r.consumerID 32 rd with
      | (some err, rdl) => .returned (some err, r, rdl)
      | (none, rdl) =>
        .returned
          ((XClaim (touch rdl (heldMutex r key) r.consumerID).2 (claimArgs r c id) f).1,
           { r with streamLocks := mapSet r.streamLocks name ⟨name, id, heldMutex r key⟩ },
           (XClaim (touch rdl (heldMutex r key) r.consumerID).2 (claimArgs r c id) f).2) := by
  unfold Claim
  simp only [h0, h1, Mutex.Lock]
  have hl : lockLoop (NewMutex r key) (NewMutex r key).genValue (NewMutex r key).tries rd
      = lockLoop (NewMutex r key) r.consumerID 32 rd := rfl
  rw [hl]
  rcases lockLoop (NewMutex r key) r.consumerID 32 rd with ⟨e, rdl⟩
  cases e with
  | some e' => rfl
  | none =>
    simp only [Mutex.Extend]
    have hx : XClaim (touch rdl { NewMutex r key with value := (NewMutex r key).genValue }
        (NewMutex r key).genValue).2
        { Stream := lbsName r, Group := lbsGroupName r, Consumer := c, MinIdle := 0,
          Messages := [id] } f
        = XClaim (touch rdl (heldMutex r key) r.consumerID).2 (claimArgs r c id) f := rfl
    rw [hx]
    rcases XClaim (touch rdl (heldMutex r key) r.consumerID).2 (claimArgs r c id) f
      with ⟨ex, rdx⟩
    cases ex <;> rfl

/-- With a heartbeat interval of one millisecond or more, a `Claim` that returns keeps
every key that exists with the value it has. -/
theorem Claim_preserves_holds (r : ReliableRedisStreamClient) (rd : Redis) (key c : String)
    (f : Option String) (err : Option GoError) (r1 : ReliableRedisStreamClient) (rd1 : Redis)
    (h : Claim r rd key c f = .returned (err, r1, rd1)) (hms : 1000000 ≤ r.hbInterval)
    (k v : String) (hk : holds rd k v) :
    holds rd1 k v := by
  obtain ⟨e, hget, hval⟩ := hk
  obtain ⟨name, id, -, -, hcase⟩ := Claim_returned r rd key c f err r1 rd1 h
  by_cases hne : e.value ≠ r.consumerID ∨ k ≠ key
  · have hl := lockLoop_keeps (NewMutex r key) r.consumerID 32 rd k e hget hne
    rcases hcase with ⟨-, hloop, -⟩ | ⟨rdl, hloop, -, hx⟩
    · rw [hloop] at hl
      exact ⟨e, hl, hval⟩
    · rw [hloop] at hl
      have ht := touch_keeps rdl (heldMutex r key) r.consumerID k e hl hne
      have hxk := XClaim_keys (touch rdl (heldMutex r key) r.consumerID).2 (claimArgs r c id) f
      rw [hx] at hxk
      exact ⟨e, by rw [hxk]; exact ht, hval⟩
  · push_neg at hne
    obtain ⟨hv, hkk⟩ := hne
    subst hkk
    have hown := lockLoop_own (NewMutex r k) r.consumerID 30 rd e hget hv
    rcases hcase with ⟨hnone, hloop, -⟩ | ⟨rdl, hloop, -, hx⟩
    · rw [hloop] at hown
      exact absurd hown hnone
    · have hs := lockLoop_success (NewMutex r k) r.consumerID 32 rd rdl hloop
      have ht := touch_own rdl (heldMutex r k) r.consumerID _ hs rfl hms
      have hxk := XClaim_keys (touch rdl (heldMutex r k) r.consumerID).2 (claimArgs r c id) f
      rw [hx] at hxk
      exact ⟨_, by rw [hxk]; exact ht, by rw [← hval, hv]⟩

theorem Unlock_expired (m : Mutex) (rd : Redis) (hkey : mapGet rd.keys m.name = none) :
    m.Unlock rd = ((false, some (.wrapped ErrLockAlreadyExpired)),
      logged rd (Cmd.EvalDelete m.name m.value)) := by
  simp [Mutex.Unlock, release, hkey, logged]

theorem Unlock_held (m : Mutex) (rd : Redis) (e : KeyEntry)
    (hkey : mapGet rd.keys m.name = some e) (hv : e.value = m.value) :
    m.Unlock rd = ((true, none),
      { logged rd (Cmd.EvalDelete m.name m.value) with keys := mapDelete rd.keys m.name }) := by
  simp [Mutex.Unlock, release, hkey, hv, logged]

theorem Unlock_taken (m : Mutex) (rd : Redis) (e : KeyEntry)
    (hkey : mapGet rd.keys m.name = some e) (hv : e.value ≠ m.value) :
    m.Unlock rd = ((false, some .ErrTaken), logged rd (Cmd.EvalDelete m.name m.value)) := by
  simp [Mutex.Unlock, release, hkey, hv, logged]

/-- `Done` on an owned session whose key is missing on the server: the entry is
acknowledged and the client is unchanged. -/
theorem Done_expired (r : ReliableRedisStreamClient) (rd : Redis) (n : String)
    (f : Option String) (info : LBSInfo) (hown : mapGet r.streamLocks n = some info)
    (hkey : mapGet rd.keys info.Mutex.name = none) :
    Done r rd n f =
      ((XAck (logged rd (Cmd.EvalDelete info.Mutex.name info.Mutex.value)) (lbsName r)
          (lbsGroupName r) info.IDInLBS f).1, r,
       (XAck (logged rd (Cmd.EvalDelete info.Mutex.name info.Mutex.value)) (lbsName r)
          (lbsGroupName r) info.IDInLBS f).2) := by
  unfold Done
  simp only [hown, Unlock_expired _ _ hkey]
  simp only [GoError.Unwrap, Option.bind, ne_eq, not_true_eq_false, and_false, if_false]
  rcases XAck (logged rd (Cmd.EvalDelete info.Mutex.name info.Mutex.value))
    (lbsName r) (lbsGroupName r) info.IDInLBS f with ⟨e, rd2⟩
  cases e <;> simp

/-- `Done` on an owned session whose key holds the value of the stored mutex. -/
theorem Done_held (r : ReliableRedisStreamClient) (rd : Redis) (n : String)
    (f : Option String) (info : LBSInfo) (hown : mapGet r.streamLocks n = some info)
    (e : KeyEntry) (hkey : mapGet rd.keys info.Mutex.name = some e)
    (hv : e.value = info.Mutex.value) :
    Done r rd n f =
      match XAck { logged rd (Cmd.EvalDelete info.Mutex.name info.Mutex.value) with
            keys := mapDelete rd.keys info.Mutex.name }
          (lbsName r) (lbsGroupName r) info.IDInLBS f with
      | (some err, rd2) => (some err, r, rd2)
      | (none, rd2) => (none, { r with streamLocks := mapDelete r.streamLocks n }, rd2) := by
  unfold Done
  simp only [hown, Unlock_held _ _ e hkey hv]
  simp only [ne_eq, not_true_eq_false, false_and, if_false, if_true]

/-- `Done` on an owned session whose key holds another value. -/
theorem Done_taken (r : ReliableRedisStreamClient) (rd : Redis) (n : String)
    (f : Option String) (info : LBSInfo) (hown : mapGet r.streamLocks n = some info)
    (e : KeyEntry) (hkey : mapGet rd.keys info.Mutex.name = some e)
    (hv : e.value ≠ info.Mutex.value) :
    Done r rd n f =
      (some .ErrTaken, r, logged rd (Cmd.EvalDelete info.Mutex.name info.Mutex.value)) := by
  unfold Done
  simp only [hown, Unlock_taken _ _ e hkey hv]
  simp [GoError.Unwrap]


theorem XClaim_log (rd : Redis) (a : XClaimArgs) (f : Option String) :
    (XClaim rd a f).2.log = rd.log ++ [Cmd.XClaim a.Stream a.Group a.Consumer a.MinIdle a.Messages] := by
  unfold XClaim; cases f <;> rfl

theorem XClaim_reassigned (rd : Redis) (a : XClaimArgs) (rd1 : Redis)
    (h : XClaim rd a none = (none, rd1)) (hidle : a.MinIdle = 0) :
    ∀ e ∈ rd1.pending, e.stream = a.Stream → e.group = a.Group → e.id ∈ a.Messages →
      e.consumer = a.Consumer := by
  intro e he hs hg hi
  unfold XClaim at h
  simp only [Prod.mk.injEq, true_and] at h
  rw [← h] at he
  simp only [List.mem_map] at he
  obtain ⟨e0, -, he0⟩ := he
  by_cases hc : e0.stream = a.Stream ∧ e0.group = a.Group ∧ e0.id ∈ a.Messages ∧ a.MinIdle ≤ e0.idle
  · rw [if_pos hc] at he0
    rw [← he0]
  · rw [if_neg hc] at he0
    subst he0
    exact absurd ⟨hs, hg, hi, by omega⟩ hc

theorem XAck_log (rd : Redis) (s g i : String) (f : Option String) :
    (XAck rd s g i f).2.log = rd.log ++ [Cmd.XAck s g i] := by
  unfold XAck; cases f <;> rfl

theorem XAck_acked (rd : Redis) (s g i : String) (rd1 : Redis)
    (h : XAck rd s g i none = (none, rd1)) :
    ∀ e ∈ rd1.pending, ¬ (e.stream = s ∧ e.group = g ∧ e.id = i) := by
  intro e he
  unfold XAck at h
  simp only [Prod.mk.injEq, true_and] at h
  rw [← h] at he
  simp only [List.mem_filter, decide_eq_true_eq] at he
  exact he.2

theorem XAck_none (rd : Redis) (s g i : String) (f : Option String)
    (h : (XAck rd s g i f).1 = none) : f = none := by
  cases f with
  | none => rfl
  | some msg => simp [XAck] at h

theorem Lock_fst (m : Mutex) (rd : Redis) :
    (m.Lock rd).1 = (lockLoop m m.genValue m.tries rd).1 := by
  unfold Mutex.Lock
  rcases lockLoop m m.genValue m.tries rd with ⟨e, rdl⟩
  cases e <;> rfl

/-- After a `Claim` that took the lock, whatever `XCLAIM` answered, the session is
registered; with a heartbeat interval of one millisecond or more the key holds the
consumer id with the interval cut to whole milliseconds as TTL, and with a shorter
interval the key is gone. -/
theorem Claim_locked (r : ReliableRedisStreamClient) (rd : Redis) (key c : String)
    (f : Option String) (name id : String)
    (h0 : (Split key ':')[0]? = some name) (h1 : (Split key ':')[1]? = some id)
    (hlock : (lockLoop (NewMutex r key) r.consumerID 32 rd).1 = none) :
    ∃ r1 rd1, Claim r rd key c f = .returned ((XClaim rd1 (claimArgs r c id) f).1, r1,
        (XClaim rd1 (claimArgs r c id) f).2) ∧
      (1000000 ≤ r.hbInterval →
        mapGet (XClaim rd1 (claimArgs r c id) f).2.keys key
          = some ⟨r.consumerID, some (r.hbInterval / 1000000)⟩) ∧
      (r.hbInterval < 1000000 →
        mapGet (XClaim rd1 (claimArgs r c id) f).2.keys key = none) ∧
      mapGet r1.streamLocks name = some ⟨name, id, heldMutex r key⟩ ∧
      r1.consumerID = r.consumerID := by
  rw [Claim_of_parts r rd key c f name id h0 h1]
  rcases hl : lockLoop (NewMutex r key) r.consumerID 32 rd with ⟨e, rdl⟩
  rw [hl] at hlock
  simp only at hlock
  subst hlock
  have hs := lockLoop_success (NewMutex r key) r.consumerID 32 rd rdl hl
  refine ⟨_, (touch rdl (heldMutex r key) r.consumerID).2, rfl, ?_, ?_, ?_, rfl⟩
  · intro hms
    rw [XClaim_keys]
    exact touch_own rdl (heldMutex r key) r.consumerID _ hs rfl hms
  · intro hms
    rw [XClaim_keys]
    exact touch_own_deletes rdl (heldMutex r key) r.consumerID _ hs rfl hms
  · simp [mapGet_mapSet]

/-! ## The ownership invariant -/

/-- What a returning `Claim` does to the client: nothing, or it registers the session
under the key, which then holds the consumer id when the heartbeat interval is one
millisecond or more. -/
theorem Claim_table (r : ReliableRedisStreamClient) (rd : Redis) (key c : String)
    (f : Option String) (err : Option GoError) (r1 : ReliableRedisStreamClient) (rd1 : Redis)
    (h : Claim r rd key c f = .returned (err, r1, rd1)) :
    r1 = r ∨
    ∃ name id, (Split key ':')[0]? = some name ∧
      r1 = { r with streamLocks := mapSet r.streamLocks name ⟨name, id, heldMutex r key⟩ } ∧
      (1000000 ≤ r.hbInterval → holds rd1 key r.consumerID) := by
  obtain ⟨name, id, h0, -, hcase⟩ := Claim_returned r rd key c f err r1 rd1 h
  rcases hcase with ⟨-, -, hr⟩ | ⟨rdl, hloop, hr, hx⟩
  · exact Or.inl hr
  · right
    refine ⟨name, id, h0, hr, fun hms => ?_⟩
    have hs := lockLoop_success (NewMutex r key) r.consumerID 32 rd rdl hloop
    have ht := touch_own rdl (heldMutex r key) r.consumerID _ hs rfl hms
    have hxk := XClaim_keys (touch rdl (heldMutex r key) r.consumerID).2 (claimArgs r c id) f
    rw [hx] at hxk
    exact ⟨_, by rw [hxk]; exact ht, rfl⟩

/-- No call changes the consumer id of a worker. -/
theorem step_consumerID {W : Type} [DecidableEq W] (s : System W) (c : Call W) (w : W) :
    ((s.step c).clients w).consumerID = (s.clients w).consumerID := by
  cases c with
  | claim w0 key nc f =>
    simp only [System.step]
    cases hC : Claim (s.clients w0) s.redis key nc f with
    | panicked msg => rfl
    | blocked => rfl
    | returned res =>
      obtain ⟨err, r1, rd1⟩ := res
      simp only
      by_cases hw : w = w0
      · subst hw
        rw [Function.update_same]
        rcases Claim_table _ _ _ _ _ _ _ _ hC with hr | ⟨name, id, -, hr, -⟩
        · rw [hr]
        · rw [hr]
      · rw [Function.update_noteq hw]
  | done w0 n f =>
    simp only [System.step]
    by_cases hw : w = w0
    · subst hw
      rw [Function.update_same]
      unfold Done
      cases mapGet (s.clients w).streamLocks n with
      | none => rfl
      | some info =>
        simp only
        split
        · rfl
        · split
          · rfl
          · split <;> rfl
    · rw [Function.update_noteq hw]

/-- No call changes the heartbeat interval of a worker. -/
theorem step_hbInterval {W : Type} [DecidableEq W] (s : System W) (c : Call W) (w : W) :
    ((s.step c).clients w).hbInterval = (s.clients w).hbInterval := by
  cases c with
  | claim w0 key nc f =>
    simp only [System.step]
    cases hC : Claim (s.clients w0) s.redis key nc f with
    | panicked msg => rfl
    | blocked => rfl
    | returned res =>
      obtain ⟨err, r1, rd1⟩ := res
      simp only
      by_cases hw : w = w0
      · subst hw
        rw [Function.update_same]
        rcases Claim_table _ _ _ _ _ _ _ _ hC with hr | ⟨name, id, -, hr, -⟩
        · rw [hr]
        · rw [hr]
      · rw [Function.update_noteq hw]
  | done w0 n f =>
    simp only [System.step]
    by_cases hw : w = w0
    · subst hw
      rw [Function.update_same]
      unfold Done
      cases mapGet (s.clients w).streamLocks n with
      | none => rfl
      | some info =>
        simp only
        split
        · rfl
        · split
          · rfl
          · split <;> rfl
    · rw [Function.update_noteq hw]

/-- One call keeps the ownership invariant, when the consumer ids differ, the heartbeat
intervals are one millisecond or more, and the call is not a `Done` with a failed `XACK`. -/
theorem step_registered {W : Type} [DecidableEq W] (s : System W) (c : Call W)
    (hinj : Function.Injective (fun w => (s.clients w).consumerID))
    (hms : ∀ w, 1000000 ≤ (s.clients w).hbInterval)
    (hack : c.ackFails = false) (hs : s.Registered) : (s.step c).Registered := by
  cases c with
  | claim w0 key nc f =>
    simp only [System.step]
    cases hC : Claim (s.clients w0) s.redis key nc f with
    | panicked msg => exact hs
    | blocked => exact hs
    | returned res =>
      obtain ⟨err, r1, rd1⟩ := res
      simp only
      have hpres := Claim_preserves_holds _ _ _ _ _ _ _ _ hC (hms w0)
      intro w n info hget
      simp only at hget ⊢
      by_cases hw : w = w0
      · subst hw
        rw [Function.update_same] at hget ⊢
        rcases Claim_table _ _ _ _ _ _ _ _ hC with hr | ⟨name, id, h0, hr, hh⟩
        · rw [hr] at hget ⊢
          obtain ⟨h1, h2, h3⟩ := hs w n info hget
          exact ⟨h1, h2, hpres _ _ h3⟩
        · rw [hr] at hget ⊢
          simp only [mapGet_mapSet] at hget
          by_cases hn : n = name
          · rw [if_pos hn] at hget
            have := Option.some.inj hget
            subst this
            subst hn
            exact ⟨rfl, h0, hh (hms w)⟩
          · rw [if_neg hn] at hget
            obtain ⟨h1, h2, h3⟩ := hs w n info hget
            exact ⟨h1, h2, hpres _ _ h3⟩
      · rw [Function.update_noteq hw] at hget ⊢
        obtain ⟨h1, h2, h3⟩ := hs w n info hget
        exact ⟨h1, h2, hpres _ _ h3⟩
  | done w0 n0 f =>
    cases f with
    | some msg => simp [Call.ackFails] at hack
    | none =>
      simp only [System.step]
      cases hown : mapGet (s.clients w0).streamLocks n0 with
      | none =>
        have hD : Done (s.clients w0) s.redis n0 none
            = (some (.errorString "stream not found"), s.clients w0, s.redis) := by
          simp [Done, hown]
        rw [hD]
        simp only [Function.update_eq_self]
        exact hs
      | some info0 =>
        obtain ⟨hv0, hsplit0, e0, hkey0, hval0⟩ := hs w0 n0 info0 hown
        have hD := Done_held (s.clients w0) s.redis n0 none info0 hown e0 hkey0
          (hval0.trans hv0.symm)
        rw [hD]
        have hx : XAck { logged s.redis (Cmd.EvalDelete info0.Mutex.name info0.Mutex.value) with
              keys := mapDelete s.redis.keys info0.Mutex.name }
            (lbsName (s.clients w0)) (lbsGroupName (s.clients w0)) info0.IDInLBS none
            = (none, (XAck { logged s.redis (Cmd.EvalDelete info0.Mutex.name info0.Mutex.value) with
              keys := mapDelete s.redis.keys info0.Mutex.name }
            (lbsName (s.clients w0)) (lbsGroupName (s.clients w0)) info0.IDInLBS none).2) := rfl
        rw [hx]
        simp only
        have hkeys := XAck_keys { logged s.redis (Cmd.EvalDelete info0.Mutex.name info0.Mutex.value)
              with keys := mapDelete s.redis.keys info0.Mutex.name }
            (lbsName (s.clients w0)) (lbsGroupName (s.clients w0)) info0.IDInLBS none
        -- keys other than the released one are kept
        have hkeep : ∀ k v, holds s.redis k v → k ≠ info0.Mutex.name →
            holds (XAck { logged s.redis (Cmd.EvalDelete info0.Mutex.name info0.Mutex.value)
              with keys := mapDelete s.redis.keys info0.Mutex.name }
            (lbsName (s.clients w0)) (lbsGroupName (s.clients w0)) info0.IDInLBS none).2 k v := by
          intro k v ⟨e, hk, hv⟩ hne
          refine ⟨e, ?_, hv⟩
          rw [hkeys]
          simp only [mapGet_mapDelete, if_neg hne]
          exact hk
        intro w n info hget
        simp only at hget ⊢
        by_cases hw : w = w0
        · subst hw
          rw [Function.update_same] at hget ⊢
          simp only [mapGet_mapDelete] at hget
          by_cases hn : n = n0
          · rw [if_pos hn] at hget
            exact absurd hget (by simp)
          · rw [if_neg hn] at hget
            obtain ⟨h1, h2, h3⟩ := hs w n info hget
            refine ⟨h1, h2, hkeep _ _ h3 ?_⟩
            intro hk
            rw [hk, hsplit0] at h2
            exact hn (Option.some.inj h2).symm
        · rw [Function.update_noteq hw] at hget ⊢
          obtain ⟨h1, h2, h3⟩ := hs w n info hget
          refine ⟨h1, h2, hkeep _ _ h3 ?_⟩
          intro hk
          obtain ⟨e, hke, hve⟩ := h3
          rw [hk, hkey0] at hke
          have : e0 = e := Option.some.inj hke
          subst this
          exact hw (hinj (hve.symm.trans hval0))

/-- A run keeps the ownership invariant and the consumer ids. -/
theorem run_registered {W : Type} [DecidableEq W] (calls : List (Call W)) (s : System W)
    (hinj : Function.Injective (fun w => (s.clients w).consumerID))
    (hms : ∀ w, 1000000 ≤ (s.clients w).hbInterval)
    (hack : ∀ c ∈ calls, c.ackFails = false) (hs : s.Registered) :
    (s.run calls).Registered ∧
      ∀ w, ((s.run calls).clients w).consumerID = (s.clients w).consumerID := by
  induction calls generalizing s with
  | nil => exact ⟨hs, fun _ => rfl⟩
  | cons c rest ih =>
    have hstep := step_registered s c hinj hms (hack c (by simp)) hs
    have hid := step_consumerID s c
    have hms' : ∀ w, 1000000 ≤ ((s.step c).clients w).hbInterval := by
      intro w
      rw [step_hbInterval]
      exact hms w
    have hinj' : Function.Injective (fun w => ((s.step c).clients w).consumerID) := by
      intro a b hab
      simp only [hid] at hab
      exact hinj hab
    obtain ⟨h1, h2⟩ := ih (s.step c) hinj' hms' (fun c' hc' => hack c' (by simp [hc'])) hstep
    refine ⟨h1, fun w => ?_⟩
    exact (h2 w).trans (hid w)


/-! ## The concrete states -/

/-- The state `worker222` is the one the constructor and a successful `Init` produce for
the pod name `222`, a heartbeat interval of 20 ms and the service `consumer`. -/
theorem worker222_initialised :
    NewRedisStreamClient "222" "" 20000000 "consumer"
      = .returned { worker222 with pubSub := none, kspChan := ⟨0, [], false⟩ } ∧
    (Init (enableKeyspaceNotifsForExpiredEvents none) (subscribeToExpiredEvents none)
      ({ worker222 with pubSub := none, kspChan := ⟨0, [], false⟩ }, serverAfterExpiry)).err
      = none ∧
    (Init (enableKeyspaceNotifsForExpiredEvents none) (subscribeToExpiredEvents none)
      ({ worker222 with pubSub := none, kspChan := ⟨0, [], false⟩ }, serverAfterExpiry)).world.1
      = worker222 := by
  decide

/-! ## The claims -/

/-- C1 (code evaluated at the claim's input): when the heartbeat key has expired and two
workers with different consumer ids call `Claim` for it one after the other, the first
call returns no error.  When the first worker's heartbeat interval is one millisecond
or more, the second call returns the error of the lock library (`ErrTaken`) unchanged,
with the client and the keys of the server as they were; that error is not the value
`"already claimed"` the test compares against.  When the interval is shorter, the
extend step of the first call has deleted the key again. -/
theorem claim_race_loser_gets_lock_error (a b : ReliableRedisStreamClient) (rd : Redis)
    (expiredStreamName consumerA consumerB idInLBS : String) (xclaimFault : Option String)
    (hid : a.consumerID ≠ b.consumerID)
    (hexpired : mapGet rd.keys expiredStreamName = none)
    (h1 : (Split expiredStreamName ':')[1]? = some idInLBS) :
    ∃ a1 rd1, Claim a rd expiredStreamName consumerA none = .returned (none, a1, rd1) ∧
      (1000000 ≤ a.hbInterval →
        ∃ rd2, Claim b rd1 expiredStreamName consumerB xclaimFault
            = .returned (some .ErrTaken, b, rd2) ∧
          rd2.keys = rd1.keys ∧
          GoError.ErrTaken ≠ .errorString "already claimed") ∧
      (a.hbInterval < 1000000 → mapGet rd1.keys expiredStreamName = none) := by
  have hla := lockLoop_absent (NewMutex a expiredStreamName) a.consumerID 31 rd hexpired
  obtain ⟨a1, rda, hca, hka, hkd, -, -⟩ :=
    Claim_locked a rd expiredStreamName consumerA none _ idInLBS (split_first _) h1 hla
  refine ⟨a1, _, hca, fun hms => ?_, hkd⟩
  have hlb := lockLoop_taken (NewMutex b expiredStreamName) b.consumerID 31 _ _ (hka hms) hid
  rw [Claim_of_parts b _ expiredStreamName consumerB xclaimFault _ idInLBS (split_first _) h1]
  rcases hl : lockLoop (NewMutex b expiredStreamName) b.consumerID 32
    (XClaim rda (claimArgs a consumerA idInLBS) none).2 with ⟨e, rdl⟩
  rw [hl] at hlb
  obtain ⟨he, hk⟩ := hlb
  simp only at he hk
  subst he
  exact ⟨rdl, rfl, hk, by simp⟩

/-- C1, at the input of the test `TestClaimWorksOnlyOnce`: consumers `222` and `333`,
with a heartbeat interval of 20 ms, claim `session1:0`. -/
theorem claim_race_loser_gets_lock_error_witness :
    worker222.consumerID ≠ worker333.consumerID ∧
    mapGet serverAfterExpiry.keys "session1:0" = none ∧
    (Split "session1:0" ':')[1]? = some "0" ∧
    1000000 ≤ worker222.hbInterval ∧
    ∃ a1 rd1, Claim worker222 serverAfterExpiry "session1:0" "redis-consumer-222" none
        = .returned (none, a1, rd1) ∧
      (1000000 ≤ worker222.hbInterval →
        ∃ rd2, Claim worker333 rd1 "session1:0" "redis-consumer-333" none
            = .returned (some .ErrTaken, worker333, rd2) ∧
          rd2.keys = rd1.keys ∧
          GoError.ErrTaken ≠ .errorString "already claimed") ∧
      (worker222.hbInterval < 1000000 → mapGet rd1.keys "session1:0" = none) :=
  ⟨by decide, by decide, by decide, by decide,
   claim_race_loser_gets_lock_error worker222 worker333 serverAfterExpiry "session1:0"
     "redis-consumer-222" "redis-consumer-333" "0" none (by decide) (by decide) (by decide)⟩

/-- The losing `Claim` of the race repeats its attempt: after worker `222` took the key
`session1:0`, the `Claim` of worker `333` sends `SET NX` thirty-two times, each followed
by the delete script with its own value, before it returns the lock error. -/
theorem claim_loser_repeats_attempt :
    Claim worker333 (serverAfterClaim "redis-consumer-222") "session1:0" "redis-consumer-333"
        none
      = .returned (some .ErrTaken, worker333,
          { serverAfterClaim "redis-consumer-222" with
            log := (serverAfterClaim "redis-consumer-222").log ++
              (List.replicate 32
                [Cmd.SetNX "session1:0" "redis-consumer-333" (some 20),
                 Cmd.EvalDelete "session1:0" "redis-consumer-333"]).flatten }) := by
  decide

/-- C2 as stated fails (counterexample): two workers with different consumer ids claim the heartbeat
keys `session1:0` and `session1:1`; both calls register, and `session1` is in the
ownership tables of both workers at the same time. -/
theorem unique_ownership_per_name_cex :
    (twoWorkers.clients false).consumerID ≠ (twoWorkers.clients true).consumerID ∧
    mapGet ((twoWorkers.run twoClaims).clients false).streamLocks "session1"
      = some session1Info ∧
    mapGet ((twoWorkers.run twoClaims).clients true).streamLocks "session1"
      = some session1Info333 := by
  decide

/-- C2 (amended): start from workers with pairwise different consumer ids, heartbeat
intervals of one millisecond or more and empty ownership tables, and run any sequence
of `Claim` and `Done` calls in which no acknowledge command fails (no key expires while
the calls run).  Then no heartbeat key is registered in the ownership tables of two
different workers: two records of two different workers never carry the same key. -/
theorem unique_ownership_per_key {W : Type} [DecidableEq W] (s : System W)
    (calls : List (Call W))
    (hempty : ∀ w, (s.clients w).streamLocks = [])
    (hinj : Function.Injective (fun w => (s.clients w).consumerID))
    (hms : ∀ w, 1000000 ≤ (s.clients w).hbInterval)
    (hack : ∀ c ∈ calls, c.ackFails = false)
    (w1 w2 : W) (hw : w1 ≠ w2) (n1 n2 : String) (i1 i2 : LBSInfo)
    (h1 : mapGet ((s.run calls).clients w1).streamLocks n1 = some i1)
    (h2 : mapGet ((s.run calls).clients w2).streamLocks n2 = some i2) :
    i1.Mutex.name ≠ i2.Mutex.name := by
  have h0 : s.Registered := by
    intro w n info hget
    rw [hempty w] at hget
    simp [mapGet] at hget
  obtain ⟨hreg, hid⟩ := run_registered calls s hinj hms hack h0
  intro hk
  obtain ⟨-, -, e1, hk1, hv1⟩ := hreg w1 n1 i1 h1
  obtain ⟨-, -, e2, hk2, hv2⟩ := hreg w2 n2 i2 h2
  rw [hk, hk2] at hk1
  have : e2 = e1 := Option.some.inj hk1
  subst this
  rw [hid] at hv1 hv2
  exact hw (hinj (hv1.symm.trans hv2))

/-- C2 (amended), at the two workers and the two claims of the counterexample. -/
theorem unique_ownership_per_key_witness :
    (∀ w, (twoWorkers.clients w).streamLocks = []) ∧
    Function.Injective (fun w => (twoWorkers.clients w).consumerID) ∧
    (∀ w, 1000000 ≤ (twoWorkers.clients w).hbInterval) ∧
    (∀ c ∈ twoClaims, c.ackFails = false) ∧
    mapGet ((twoWorkers.run twoClaims).clients false).streamLocks "session1"
      = some session1Info ∧
    mapGet ((twoWorkers.run twoClaims).clients true).streamLocks "session1"
      = some session1Info333 ∧
    session1Info.Mutex.name ≠ session1Info333.Mutex.name :=
  ⟨by decide, by decide, by decide, by decide, by decide, by decide,
   unique_ownership_per_key twoWorkers twoClaims (by decide) (by decide) (by decide)
     (by decide) false true (by decide) "session1" "session1" session1Info session1Info333
     (by decide) (by decide)⟩

/-- Runs with a failed acknowledge are outside the ownership invariant: when the `XACK`
of a `Done` fails, the key is already deleted and the record stays in the table, so
that another worker can take the same key and register the same session. -/
theorem done_ack_failure_leaves_entry :
    mapGet ((twoWorkers.run
        [.claim false "session1:0" "redis-consumer-222" none,
         .done false "session1" (some "i/o timeout"),
         .claim true "session1:0" "redis-consumer-333" none]).clients false).streamLocks
        "session1" = some session1Info ∧
    (mapGet ((twoWorkers.run
        [.claim false "session1:0" "redis-consumer-222" none,
         .done false "session1" (some "i/o timeout"),
         .claim true "session1:0" "redis-consumer-333" none]).clients true).streamLocks
        "session1").map (fun i => i.Mutex.name) = some "session1:0" := by
  decide

/-- Heartbeat intervals under one millisecond are outside the ownership invariant: the
extend step of `Claim` then deletes the key it has just taken, so that another worker
can take the same key at once and both register it. -/
theorem short_interval_two_owners :
    (mapGet ((twoShortIntervalWorkers.run
        [.claim false "session1:0" "redis-consumer-222" none,
         .claim true "session1:0" "redis-consumer-333" none]).clients false).streamLocks
        "session1").map (fun i => i.Mutex.name) = some "session1:0" ∧
    (mapGet ((twoShortIntervalWorkers.run
        [.claim false "session1:0" "redis-consumer-222" none,
         .claim true "session1:0" "redis-consumer-333" none]).clients true).streamLocks
        "session1").map (fun i => i.Mutex.name) = some "session1:0" := by
  decide

/-- C3 (amended): after a `Claim` of the key `"<name>:<id>"` that returns no error,
(i) the ownership table maps `name` to a record with that name and that id, (ii) when
the heartbeat interval is one millisecond or more, the heartbeat key exists with this
worker's consumer id as value and the interval cut to whole milliseconds as TTL, and
when the interval is shorter the key no longer exists, and (iii) the last command is
the `XCLAIM` of `id` with min-idle `0` in group `"<service>-group"` of stream
`"<service>-input"` for the consumer the caller passed as `newConsumerID`, and every
pending entry `id` of that group belongs to that consumer. -/
theorem claim_success_post (r : ReliableRedisStreamClient) (rd : Redis)
    (expiredStreamName newConsumerID : String) (xclaimFault : Option String)
    (r1 : ReliableRedisStreamClient) (rd1 : Redis)
    (h : Claim r rd expiredStreamName newConsumerID xclaimFault = .returned (none, r1, rd1)) :
    ∃ streamName idInLBS,
      (Split expiredStreamName ':')[0]? = some streamName ∧
      (Split expiredStreamName ':')[1]? = some idInLBS ∧
      (∃ mutex, mapGet r1.streamLocks streamName = some ⟨streamName, idInLBS, mutex⟩) ∧
      (1000000 ≤ r.hbInterval →
        mapGet rd1.keys expiredStreamName
          = some ⟨r.consumerID, some (r.hbInterval / 1000000)⟩) ∧
      (r.hbInterval < 1000000 → mapGet rd1.keys expiredStreamName = none) ∧
      rd1.log.getLast? = some (Cmd.XClaim (r.serviceName ++ "-input") (r.serviceName ++ "-group")
        newConsumerID 0 [idInLBS]) ∧
      (∀ e ∈ rd1.pending, e.stream = r.serviceName ++ "-input" →
        e.group = r.serviceName ++ "-group" → e.id = idInLBS → e.consumer = newConsumerID) := by
  obtain ⟨name, id, h0, h1, hcase⟩ := Claim_returned r rd _ _ _ _ r1 rd1 h
  refine ⟨name, id, h0, h1, ?_⟩
  rcases hcase with ⟨hne, -, -⟩ | ⟨rdl, hloop, hr1, hx⟩
  · exact absurd rfl hne
  · have hs := lockLoop_success (NewMutex r expiredStreamName) r.consumerID 32 rd rdl hloop
    have hxk := XClaim_keys (touch rdl (heldMutex r expiredStreamName) r.consumerID).2
      (claimArgs r newConsumerID id) xclaimFault
    have hxl := XClaim_log (touch rdl (heldMutex r expiredStreamName) r.consumerID).2
      (claimArgs r newConsumerID id) xclaimFault
    have hf : xclaimFault = none := by
      cases xclaimFault with
      | none => rfl
      | some msg => simp [XClaim] at hx
    subst hf
    have hre := XClaim_reassigned _ _ rd1 hx rfl
    rw [hx] at hxk hxl
    refine ⟨⟨heldMutex r expiredStreamName, ?_⟩, ?_, ?_, ?_, ?_⟩
    · rw [hr1]; simp [mapGet_mapSet]
    · intro hms
      rw [hxk]
      exact touch_own rdl (heldMutex r expiredStreamName) r.consumerID _ hs rfl hms
    · intro hms
      rw [hxk]
      exact touch_own_deletes rdl (heldMutex r expiredStreamName) r.consumerID _ hs rfl hms
    · rw [hxl]; simp [claimArgs, lbsName, lbsGroupName, InputSuffix, GroupSuffix]
    · intro e he hs hg hi
      exact hre e he hs hg (by simp [claimArgs, hi])

/-- C3 (amended), at worker `222`, whose heartbeat interval is 20 ms, claiming
`session1:0` for consumer `333`. -/
theorem claim_success_post_witness :
    Claim worker222 serverAfterExpiry "session1:0" "redis-consumer-333" none
        = .returned (none, worker222Owning, serverAfterClaim "redis-consumer-333") ∧
    ∃ streamName idInLBS,
      (Split "session1:0" ':')[0]? = some streamName ∧
      (Split "session1:0" ':')[1]? = some idInLBS ∧
      (∃ mutex, mapGet worker222Owning.streamLocks streamName
        = some ⟨streamName, idInLBS, mutex⟩) ∧
      (1000000 ≤ worker222.hbInterval →
        mapGet (serverAfterClaim "redis-consumer-333").keys "session1:0"
          = some ⟨worker222.consumerID, some (worker222.hbInterval / 1000000)⟩) ∧
      (worker222.hbInterval < 1000000 →
        mapGet (serverAfterClaim "redis-consumer-333").keys "session1:0" = none) ∧
      (serverAfterClaim "redis-consumer-333").log.getLast?
        = some (Cmd.XClaim (worker222.serviceName ++ "-input")
            (worker222.serviceName ++ "-group") "redis-consumer-333" 0 [idInLBS]) ∧
      (∀ e ∈ (serverAfterClaim "redis-consumer-333").pending,
        e.stream = worker222.serviceName ++ "-input" →
        e.group = worker222.serviceName ++ "-group" → e.id = idInLBS →
        e.consumer = "redis-consumer-333") :=
  ⟨by decide,
   claim_success_post worker222 serverAfterExpiry "session1:0" "redis-consumer-333" none
     worker222Owning (serverAfterClaim "redis-consumer-333") (by decide)⟩

/-- C3 as stated fails (counterexample): worker `222` claims `session1:0` and passes `redis-consumer-333`
as `newConsumerID`; the call returns no error and the pending entry `0` belongs to
`redis-consumer-333`, not to the worker's own consumer id. -/
theorem claim_reassigns_to_own_id_cex :
    Claim worker222 serverAfterExpiry "session1:0" "redis-consumer-333" none
        = .returned (none, worker222Owning, serverAfterClaim "redis-consumer-333") ∧
    ¬ (∀ e ∈ (serverAfterClaim "redis-consumer-333").pending,
        e.stream = "consumer-input" → e.group = "consumer-group" → e.id = "0" →
        e.consumer = worker222.consumerID) := by
  refine ⟨by decide, fun h => ?_⟩
  have := h ⟨"consumer-input", "consumer-group", "0", "redis-consumer-333", 0⟩
    (by simp [serverAfterClaim]) rfl rfl rfl
  exact absurd this (by decide)

/-- A heartbeat interval of 20.5 ms: a `Claim` that returns no error leaves the key with
a TTL of 20 ms, the interval cut to whole milliseconds. -/
theorem claim_ttl_whole_milliseconds :
    (match Claim { worker222 with hbInterval := 20500000 } serverAfterExpiry "session1:0"
        "redis-consumer-222" none with
      | .returned (none, _, rd1) => mapGet rd1.keys "session1:0"
      | _ => none)
      = some ⟨"redis-consumer-222", some 20⟩ := by
  decide

/-- A heartbeat interval of half a millisecond: a `Claim` returns no error and registers
the session, and the key is gone, because the extend step has sent `PEXPIRE` with zero
milliseconds. -/
theorem claim_short_interval_deletes_key :
    (match Claim { worker222 with hbInterval := 500000 } serverAfterExpiry "session1:0"
        "redis-consumer-222" none with
      | .returned (none, r1, rd1) =>
        some (mapGet rd1.keys "session1:0", (mapGet r1.streamLocks "session1").isSome,
          rd1.log)
      | _ => none)
      = some (none, true,
          [Cmd.SetNX "session1:0" "redis-consumer-222" (some 1),
           Cmd.EvalTouch "session1:0" "redis-consumer-222" 0,
           Cmd.XClaim "consumer-input" "consumer-group" "redis-consumer-222" 0 ["0"]]) := by
  decide

/-- C4 (amended): when `Claim` has taken the heartbeat key and the `XCLAIM` command
fails, `Claim` returns the error of that command, and the failed `XCLAIM` is the last
command sent: nothing is released.  The session stays registered in the ownership
table, and the heartbeat key is as the extend step left it: when the heartbeat interval
is one millisecond or more it exists with this worker's consumer id and the interval
cut to whole milliseconds as TTL, and when the interval is shorter it no longer
exists. -/
theorem claim_xclaim_failure_keeps_lock (r : ReliableRedisStreamClient) (rd : Redis)
    (expiredStreamName newConsumerID msg streamName idInLBS : String)
    (h0 : (Split expiredStreamName ':')[0]? = some streamName)
    (h1 : (Split expiredStreamName ':')[1]? = some idInLBS)
    (hlock : ((NewMutex r expiredStreamName).Lock rd).1 = none) :
    ∃ r1 rd1,
      Claim r rd expiredStreamName newConsumerID (some msg)
        = .returned (some (.redis msg), r1, rd1) ∧
      (1000000 ≤ r.hbInterval →
        mapGet rd1.keys expiredStreamName
          = some ⟨r.consumerID, some (r.hbInterval / 1000000)⟩) ∧
      (r.hbInterval < 1000000 → mapGet rd1.keys expiredStreamName = none) ∧
      (∃ mutex, mapGet r1.streamLocks streamName = some ⟨streamName, idInLBS, mutex⟩) ∧
      rd1.log.getLast? = some (Cmd.XClaim (r.serviceName ++ "-input")
        (r.serviceName ++ "-group") newConsumerID 0 [idInLBS]) := by
  rw [Lock_fst] at hlock
  obtain ⟨r1, rd1, hc, hk, hkd, ht, -⟩ :=
    Claim_locked r rd expiredStreamName newConsumerID (some msg) streamName idInLBS h0 h1 hlock
  refine ⟨r1, _, hc, hk, hkd, ⟨_, ht⟩, ?_⟩
  rw [XClaim_log]
  simp [claimArgs, lbsName, lbsGroupName, InputSuffix, GroupSuffix]

/-- C4 (amended), at worker `222`, whose heartbeat interval is 20 ms, claiming
`session1:0` with a failing `XCLAIM`. -/
theorem claim_xclaim_failure_keeps_lock_witness :
    (Split "session1:0" ':')[0]? = some "session1" ∧
    (Split "session1:0" ':')[1]? = some "0" ∧
    ((NewMutex worker222 "session1:0").Lock serverAfterExpiry).1 = none ∧
    ∃ r1 rd1,
      Claim worker222 serverAfterExpiry "session1:0" "redis-consumer-222" (some "i/o timeout")
        = .returned (some (.redis "i/o timeout"), r1, rd1) ∧
      (1000000 ≤ worker222.hbInterval →
        mapGet rd1.keys "session1:0"
          = some ⟨worker222.consumerID, some (worker222.hbInterval / 1000000)⟩) ∧
      (worker222.hbInterval < 1000000 → mapGet rd1.keys "session1:0" = none) ∧
      (∃ mutex, mapGet r1.streamLocks "session1" = some ⟨"session1", "0", mutex⟩) ∧
      rd1.log.getLast? = some (Cmd.XClaim (worker222.serviceName ++ "-input")
        (worker222.serviceName ++ "-group") "redis-consumer-222" 0 ["0"]) :=
  ⟨by decide, by decide, by decide,
   claim_xclaim_failure_keeps_lock worker222 serverAfterExpiry "session1:0"
     "redis-consumer-222" "i/o timeout" "session1" "0" (by decide) (by decide) (by decide)⟩

/-- C4 as stated fails (counterexample): worker `222` takes the key `session1:0`, the `XCLAIM` fails,
and `Claim` returns the error while the key is still held, the session is registered,
and no delete script was sent. -/
theorem claim_no_compensation_cex :
    Claim worker222 serverAfterExpiry "session1:0" "redis-consumer-222" (some "i/o timeout")
      = .returned (some (.redis "i/o timeout"), worker222Owning,
          { serverAfterClaim "redis-consumer-222" with pending := serverAfterExpiry.pending }) ∧
    mapGet (serverAfterClaim "redis-consumer-222").keys "session1:0"
      = some ⟨worker222.consumerID, some 20⟩ ∧
    mapGet worker222Owning.streamLocks "session1" = some session1Info ∧
    Cmd.EvalDelete "session1:0" "redis-consumer-222" ∉
      (serverAfterClaim "redis-consumer-222").log := by
  decide

/-- C5: `Done` for a name that is absent from the ownership table returns the error
`"stream not found"` and leaves the client and the server, the log of received
commands included, unchanged. -/
theorem done_not_owned (r : ReliableRedisStreamClient) (rd : Redis) (streamName : String)
    (xackFault : Option String) (h : mapGet r.streamLocks streamName = none) :
    Done r rd streamName xackFault = (some (.errorString "stream not found"), r, rd) := by
  simp [Done, h]

/-- C5, at worker `222`, which owns nothing, releasing `session1`. -/
theorem done_not_owned_witness :
    mapGet worker222.streamLocks "session1" = none ∧
    Done worker222 serverAfterExpiry "session1" none
      = (some (.errorString "stream not found"), worker222, serverAfterExpiry) :=
  ⟨by decide, done_not_owned worker222 serverAfterExpiry "session1" none (by decide)⟩

/-- C6 (amended): for an owned session, (a) when the heartbeat key is missing on the
server, `Done` with a working `XACK` returns no error and leaves the client unchanged;
(b) whenever `Done` returns no error, the `XACK` of the entry is the last command, no
pending entry with that id is left in the group, and either the key held the value of
the stored lock and the session is no longer in the ownership table, or the key was
missing and the client, its ownership table included, is unchanged. -/
theorem done_success_post (r : ReliableRedisStreamClient) (rd : Redis) (streamName : String)
    (xackFault : Option String) (lbsInfo : LBSInfo)
    (hown : mapGet r.streamLocks streamName = some lbsInfo) :
    (mapGet rd.keys lbsInfo.Mutex.name = none →
      (Done r rd streamName none).1 = none ∧ (Done r rd streamName none).2.1 = r) ∧
    (∀ r1 rd1, Done r rd streamName xackFault = (none, r1, rd1) →
      rd1.log.getLast? = some (Cmd.XAck (r.serviceName ++ "-input")
        (r.serviceName ++ "-group") lbsInfo.IDInLBS) ∧
      (∀ e ∈ rd1.pending, ¬ (e.stream = r.serviceName ++ "-input" ∧
        e.group = r.serviceName ++ "-group" ∧ e.id = lbsInfo.IDInLBS)) ∧
      (((∃ e, mapGet rd.keys lbsInfo.Mutex.name = some e ∧ e.value = lbsInfo.Mutex.value) ∧
          mapGet r1.streamLocks streamName = none) ∨
       (mapGet rd.keys lbsInfo.Mutex.name = none ∧ r1 = r))) := by
  constructor
  · intro hkey
    rw [Done_expired r rd streamName none lbsInfo hown hkey]
    exact ⟨rfl, rfl⟩
  · intro r1 rd1 h
    cases hkey : mapGet rd.keys lbsInfo.Mutex.name with
    | none =>
      rw [Done_expired r rd streamName xackFault lbsInfo hown hkey] at h
      simp only [Prod.mk.injEq] at h
      obtain ⟨he, hr, hrd⟩ := h
      have hf := XAck_none _ _ _ _ _ he
      subst hf
      have hacked := XAck_acked _ _ _ _ rd1 (Prod.ext he hrd)
      refine ⟨?_, ?_, Or.inr ⟨rfl, hr.symm⟩⟩
      · rw [← hrd, XAck_log]
        simp [lbsName, lbsGroupName, InputSuffix, GroupSuffix]
      · simpa [lbsName, lbsGroupName, InputSuffix, GroupSuffix] using hacked
    | some e =>
      by_cases hv : e.value = lbsInfo.Mutex.value
      · rw [Done_held r rd streamName xackFault lbsInfo hown e hkey hv] at h
        rcases hx : XAck { logged rd (Cmd.EvalDelete lbsInfo.Mutex.name lbsInfo.Mutex.value) with
            keys := mapDelete rd.keys lbsInfo.Mutex.name }
          (lbsName r) (lbsGroupName r) lbsInfo.IDInLBS xackFault with ⟨ex, rdx⟩
        rw [hx] at h
        cases ex with
        | some err => simp at h
        | none =>
          simp only [Prod.mk.injEq, true_and] at h
          obtain ⟨hr, hrd⟩ := h
          subst hrd
          have hf := XAck_none _ _ _ _ _ (congrArg Prod.fst hx)
          subst hf
          have hacked := XAck_acked _ _ _ _ rdx hx
          have hlog := XAck_log { logged rd (Cmd.EvalDelete lbsInfo.Mutex.name lbsInfo.Mutex.value)
            with keys := mapDelete rd.keys lbsInfo.Mutex.name }
            (lbsName r) (lbsGroupName r) lbsInfo.IDInLBS none
          rw [hx] at hlog
          refine ⟨?_, ?_, Or.inl ⟨⟨e, rfl, hv⟩, ?_⟩⟩
          · rw [hlog]
            simp [lbsName, lbsGroupName, InputSuffix, GroupSuffix]
          · simpa [lbsName, lbsGroupName, InputSuffix, GroupSuffix] using hacked
          · rw [← hr]
            simp [mapGet_mapDelete]
      · rw [Done_taken r rd streamName xackFault lbsInfo hown e hkey hv] at h
        simp at h

/-- C6 (amended), at worker `222` releasing `session1` while it holds the key. -/
theorem done_success_post_witness :
    mapGet worker222Owning.streamLocks "session1" = some session1Info ∧
    (mapGet (serverAfterClaim "redis-consumer-222").keys session1Info.Mutex.name = none →
      (Done worker222Owning (serverAfterClaim "redis-consumer-222") "session1" none).1 = none ∧
      (Done worker222Owning (serverAfterClaim "redis-consumer-222") "session1" none).2.1
        = worker222Owning) ∧
    (∀ r1 rd1, Done worker222Owning (serverAfterClaim "redis-consumer-222") "session1" none
        = (none, r1, rd1) →
      rd1.log.getLast? = some (Cmd.XAck (worker222Owning.serviceName ++ "-input")
        (worker222Owning.serviceName ++ "-group") session1Info.IDInLBS) ∧
      (∀ e ∈ rd1.pending, ¬ (e.stream = worker222Owning.serviceName ++ "-input" ∧
        e.group = worker222Owning.serviceName ++ "-group" ∧ e.id = session1Info.IDInLBS)) ∧
      (((∃ e, mapGet (serverAfterClaim "redis-consumer-222").keys session1Info.Mutex.name
            = some e ∧ e.value = session1Info.Mutex.value) ∧
          mapGet r1.streamLocks "session1" = none) ∨
       (mapGet (serverAfterClaim "redis-consumer-222").keys session1Info.Mutex.name = none ∧
          r1 = worker222Owning))) :=
  ⟨by decide,
   done_success_post worker222Owning (serverAfterClaim "redis-consumer-222") "session1" none
     session1Info (by decide)⟩

/-- C6 as stated fails (counterexample): worker `222` owns `session1` and its heartbeat key has expired;
`Done` returns no error and `session1` is still in the ownership table. -/
theorem done_expired_keeps_entry_cex :
    mapGet worker222Owning.streamLocks "session1" = some session1Info ∧
    mapGet serverAfterExpiry.keys "session1:0" = none ∧
    (Done worker222Owning serverAfterExpiry "session1" none).1 = none ∧
    mapGet (Done worker222Owning serverAfterExpiry "session1" none).2.1.streamLocks "session1"
      = some session1Info := by
  decide

/-- C7 (code evaluated at the claim's inputs): for every key without a `":"`, `Claim`
panics at `parts[1]` with an index out of range. -/
theorem claim_panics_without_colon (r : ReliableRedisStreamClient) (rd : Redis)
    (expiredStreamName newConsumerID : String) (xclaimFault : Option String)
    (h : ':' ∉ expiredStreamName.data) :
    Claim r rd expiredStreamName newConsumerID xclaimFault =
      .panicked "index out of range [1] with length 1" := by
  simp only [Claim, split_first, split_second_none _ h]

/-- C7, at the key `session1`. -/
theorem claim_panics_without_colon_witness :
    ':' ∉ "session1".data ∧
    Claim worker222 serverAfterExpiry "session1" "redis-consumer-222" none
      = .panicked "index out of range [1] with length 1" :=
  ⟨by decide,
   claim_panics_without_colon worker222 serverAfterExpiry "session1" "redis-consumer-222"
     none (by decide)⟩

/-- C8 (amended): the first part of the split of `name + ":" + id` is always the prefix
of the key before its first `":"`, and the first two parts are exactly `name` and `id`
if and only if neither `name` nor `id` contains a `":"`. -/
theorem split_roundtrip_iff (name id : String) :
    (Split (name ++ ":" ++ id) ':')[0]? =
        some ⟨(name ++ ":" ++ id).data.takeWhile (fun c => !decide (c = ':'))⟩ ∧
    (((Split (name ++ ":" ++ id) ':')[0]? = some name ∧
        (Split (name ++ ":" ++ id) ':')[1]? = some id) ↔
      (':' ∉ name.data ∧ ':' ∉ id.data)) := by
  refine ⟨split_first _, ?_⟩
  have hdata : (name ++ ":" ++ id).data = name.data ++ ':' :: id.data := by
    simp [String.data_append]
  constructor
  · rintro ⟨h0, h1⟩
    rw [split_first, hdata] at h0
    have hn : ':' ∉ name.data := by
      have e : (name.data ++ ':' :: id.data).takeWhile (fun c => !decide (c = ':')) = name.data := by
        have := congrArg String.data (Option.some.inj h0)
        simpa using this
      rw [← e]
      exact sep_not_mem_takeWhile ':' _
    refine ⟨hn, ?_⟩
    rw [split_second, hdata, dropWhile_append_sep ':' _ _ hn] at h1
    have e : id.data.takeWhile (fun c => !decide (c = ':')) = id.data := by
      have := congrArg String.data (Option.some.inj h1)
      simpa using this
    exact (takeWhile_ne_eq_self ':' _).1 e
  · rintro ⟨hn, hi⟩
    constructor
    · rw [split_first, hdata, takeWhile_append_sep ':' _ _ hn]
    · rw [split_second, hdata, dropWhile_append_sep ':' _ _ hn]
      simp only
      rw [(takeWhile_ne_eq_self ':' _).2 hi]

/-- C8 as stated fails (counterexample): for the name `a:b` and the id `1` the split of `a:b:1` yields
`a` and `b`. -/
theorem split_roundtrip_cex :
    ¬ ((Split ("a:b" ++ ":" ++ "1") ':')[0]? = some "a:b" ∧
       (Split ("a:b" ++ ":" ++ "1") ':')[1]? = some "1") := by
  decide

/-- C9 (code evaluated at the claim's inputs): whenever a first `Close` returns, a
second `Close` panics at `close(r.lbsChan)`. -/
theorem close_twice_panics (r r1 : ReliableRedisStreamClient) (h : Close r = .returned r1) :
    Close r1 = .panicked "close of closed channel" := by
  have hc : r1.lbsChan.closed = true := by
    unfold Close at h
    by_cases h0 : r.lbsChan.closed = true
    · rw [if_pos h0] at h
      exact absurd h (by simp)
    · rw [if_neg h0] at h
      cases hp : r.pubSub with
      | none => simp [hp] at h
      | some ps =>
        simp only [hp] at h
        split_ifs at h <;> rw [← Outcome.returned.inj h]
  simp [Close, hc]

/-- C9, at the initialised worker `222`. -/
theorem close_twice_panics_witness :
    Close worker222 = .returned worker222Closed ∧
    Close worker222Closed = .panicked "close of closed channel" :=
  ⟨by decide, close_twice_panics worker222 worker222Closed (by decide)⟩

/-- C10: `Init` returns an error if and only if the first step fails, or the first
step succeeds and the second step, run on the state the first step left, fails; when
the first step succeeds the second runs on that state; when the first step fails the
state is the one it left and the result does not depend on the second step; and
whenever `Init` returns an error, both channels are nil and the group reader is not
started. -/
theorem init_failure_handling (enable subscribe : InitStep) (w : World) :
    ((Init enable subscribe w).err ≠ none ↔
      ((enable w).1 ≠ none ∨ ((enable w).1 = none ∧ (subscribe (enable w).2).1 ≠ none))) ∧
    ((enable w).1 = none → (Init enable subscribe w).world = (subscribe (enable w).2).2) ∧
    ((enable w).1 ≠ none → (Init enable subscribe w).world = (enable w).2 ∧
      ∀ other : InitStep, Init enable other w = Init enable subscribe w) ∧
    ((Init enable subscribe w).err ≠ none →
      (Init enable subscribe w).err = some (.errorString "error initializing the client") ∧
      (Init enable subscribe w).lbsChan = none ∧ (Init enable subscribe w).kspChan = none ∧
      (Init enable subscribe w).readerStarted = false) := by
  unfold Init checkErr
  rcases h1 : enable w with ⟨e1, w1⟩
  cases e1 with
  | some err => simp
  | none =>
    rcases h2 : subscribe w1 with ⟨e2, w2⟩
    cases e2 with
    | some err => simp [h2]
    | none => simp [h2]

/-- An `Init` whose first step fails: it returns the initialisation error, only
`CONFIG SET` has reached the server, and the group reader is not started. -/
theorem init_enable_failure_example :
    (Init (enableKeyspaceNotifsForExpiredEvents (some "i/o timeout"))
        (subscribeToExpiredEvents none)
        (worker222, serverAfterExpiry)).err
      = some (.errorString "error initializing the client") ∧
    (Init (enableKeyspaceNotifsForExpiredEvents (some "i/o timeout"))
        (subscribeToExpiredEvents none)
        (worker222, serverAfterExpiry)).world.2.log
      = [Cmd.ConfigSet "notify-keyspace-events" "Ex"] ∧
    (Init (enableKeyspaceNotifsForExpiredEvents (some "i/o timeout"))
        (subscribeToExpiredEvents none)
        (worker222, serverAfterExpiry)).readerStarted = false := by
  decide

end RedisStreamClient
